import Mathlib

/-!
# vnStat `src/dbsql.c`: the traffic database layer

A shallow embedding of the SQLite-backed storage functions of `dbsql.c`
(`db_exec`, `db_getinterfaceid`, `db_setcounters`, `db_getcounters`, `db_setinfo`,
`db_getinfo`, `db_addtraffic_dated`, `db_removeoldentries`, the transaction calls) and
theorems about them.

Conventions of the embedding.

* The database handle `db` is the value `Conn`: the three kinds of table, the open
  transaction (with the contents saved at `BEGIN`), and the two per-connection counters
  the code reads (`sqlite3_changes`, `sqlite3_last_insert_rowid`).
* Every SQL statement the code formats is a constructor of `Stmt`: the call of
  `sqlite3_snprintf` with its arguments, together with the `db_exec` of the text it leaves
  in the buffer; `Stmt.step` is what SQLite does with that text.  A statement fails only
  for a reason that is in the statement and the tables (malformed text, a `UNIQUE` or
  `NOT NULL` violation); input/output errors of the backend are not modelled.  No code path
  reads `sqlite3_changes` or `sqlite3_last_insert_rowid` after a rejected statement, and
  the model leaves the two counters as they were.
* The parts of a statement that come from a C string (an interface name, a name or value
  of `info`, a date expression) are kept as text: escaped as `%q` escapes, cut to the
  buffer (`char sql[512]`, `char sql[1024]`) as `sqlite3_snprintf` cuts, and read back
  from the cut text as SQLite reads it.  The statements that carry only numbers and date
  expressions are shorter than their buffers for every input (`nowdate` at most 43 bytes
  of 64, `datebuffer` at most 337 of 512, a statement at most 461 of 1024 or 114 of 512).
* A date is the number of seconds from 1970-01-01 00:00:00 to the wall-clock reading the
  stored text spells (`2024-03-15` is the reading `2024-03-15 00:00:00`); texts of one
  table have one format, so text order and equality are order and equality of these
  numbers.  A date function of SQLite gives NULL when its result is past
  9999-12-31 23:59:59 (`sqlDate`); the clock itself is taken to be within that range in
  `horizon`.
* An `INTEGER` column holds a signed 64-bit value; SQLite turns a decimal literal or a sum
  that does not fit into a floating-point value (`Cell.real`).
* C strings are `String`s, one `Char` a byte.  A C `int` result is an `Int` (1 success,
  0 failure).
-/

namespace Dbsql

/-! ## Values and rows -/

/-- An `INTEGER NOT NULL` column value: a signed 64-bit integer, or the floating-point
value SQLite stores when a literal or a sum is `2^63` or more. -/
inductive Cell where
  | int (v : Int)
  | real
  deriving DecidableEq, Repr

/-- The value of a decimal literal printed with `PRIu64`: an integer when it fits a signed
64-bit integer, floating point otherwise. -/
def Cell.ofLiteral (u : Nat) : Cell :=
  if u < 2 ^ 63 then Cell.int u else Cell.real

/-- SQL `col + literal` for a non-negative literal and a column that is not negative:
integer addition, floating point once an operand is floating point or the sum leaves the
signed 64-bit range. -/
def Cell.add (c : Cell) (u : Nat) : Cell :=
  match c with
  | Cell.int v => if u < 2 ^ 63 ∧ v + u < 2 ^ 63 then Cell.int (v + u) else Cell.real
  | Cell.real => Cell.real

/-- The C value `sqlite3_column_int64` returns: the integer itself, and the largest signed
64-bit integer for a floating-point value of `2^63` or more. -/
def Cell.column_int64 : Cell → Int
  | Cell.int v => v
  | Cell.real => 2 ^ 63 - 1

/-- The C cast `(uint64_t)` of a signed 64-bit value. -/
def toUint64 (v : Int) : Nat := (v % 2 ^ 64).toNat

/-- One row of table `interface`. -/
structure IfaceRow where
  id : Int
  name : String
  ifalias : Option String
  active : Int
  created : Int
  updated : Int
  rxcounter : Cell
  txcounter : Cell
  rxtotal : Cell
  txtotal : Cell
  deriving DecidableEq, Repr

/-- One row of a series table (`fiveminute`, `hour`, `day`, `month`, `year`). -/
structure BucketRow where
  id : Int
  interface : Int
  date : Int
  rx : Cell
  tx : Cell
  deriving DecidableEq, Repr

/-- One row of table `info`. -/
structure InfoRow where
  id : Int
  name : String
  value : String
  deriving DecidableEq, Repr

/-- The five series of `datatables[]`, in the order of the array. -/
inductive Res where
  | fiveminute
  | hour
  | day
  | month
  | year
  deriving DecidableEq, Repr

/-- The indices `i = 0 .. 4` of the `for` loops over `datatables[]`. -/
def Res.all : List Res := [Res.fiveminute, Res.hour, Res.day, Res.month, Res.year]

/-- The tables `db_create` makes. -/
structure Tables where
  info : List InfoRow
  interface : List IfaceRow
  fiveminute : List BucketRow
  hour : List BucketRow
  day : List BucketRow
  month : List BucketRow
  year : List BucketRow
  deriving DecidableEq, Repr

/-- The rows of the series table `datatables[i]`. -/
def Tables.series (t : Tables) : Res → List BucketRow
  | Res.fiveminute => t.fiveminute
  | Res.hour => t.hour
  | Res.day => t.day
  | Res.month => t.month
  | Res.year => t.year

/-- Replace the rows of the series table `datatables[i]`. -/
def Tables.setSeries (t : Tables) (r : Res) (rows : List BucketRow) : Tables :=
  match r with
  | Res.fiveminute => { t with fiveminute := rows }
  | Res.hour => { t with hour := rows }
  | Res.day => { t with day := rows }
  | Res.month => { t with month := rows }
  | Res.year => { t with year := rows }

/-- The connection `db`. `txn` is `some saved` while a transaction is open, `saved` being
the tables at `BEGIN`. -/
structure Conn where
  tables : Tables
  txn : Option Tables
  changes : Nat
  lastRowid : Int
  deriving DecidableEq, Repr

/-- What a call reads from outside the database: the clock (`'now'`, unix seconds), the
offset of local time from UTC in seconds (the modifier `'localtime'`), and which texts
SQLite takes for true when a text stands where a condition is expected (it reads a
leading number and compares it with zero). -/
structure Env where
  now : Int
  tz : Int
  textTrue : String → Bool := fun _ => false

/-! ## Dates -/

/-- The modifier `'localtime'`. -/
def localtime (env : Env) (t : Int) : Int := t + env.tz

/-- The first instant SQLite's date functions cover: Julian day 0. -/
def minInstant : Int := -210866760000

/-- The last instant SQLite's date functions cover: 9999-12-31 23:59:59. -/
def maxInstant : Int := 253402300799

/-- The result of a date function whose last modifier leaves the reading `l`: NULL
(`none`) when `l` is outside the range SQLite covers. -/
def sqlDate (l : Int) : Option Int :=
  if minInstant ≤ l ∧ l ≤ maxInstant then some l else none

/-- The value of `strftime('%M', t)`: the minute of the hour. -/
def strftimeM (t : Int) : Int := t / 60 % 60

/-- The value of `strftime('%S', t)`: the second of the minute. -/
def strftimeS (t : Int) : Int := t % 60

/-- SQL `round(q, 0)` of an integer `q`: the same number (as a floating-point value). -/
def sqlRound0 (q : Int) : Int := q

/-- Year, month and day of the day number `z` (days from 1970-01-01), proleptic
Gregorian calendar. -/
def civilFromDays (z0 : Int) : Int × Int × Int :=
  let z := z0 + 719468
  let era := z / 146097
  let doe := z % 146097
  let yoe := (doe - doe / 1460 + doe / 36524 - doe / 146096) / 365
  let doy := doe - (365 * yoe + yoe / 4 - yoe / 100)
  let mp := (5 * doy + 2) / 153
  let d := doy - (153 * mp + 2) / 5 + 1
  let m := if mp < 10 then mp + 3 else mp - 9
  (if m ≤ 2 then yoe + era * 400 + 1 else yoe + era * 400, m, d)

/-- Day number of year `y0`, month `m`, day `d`; a day past the end of the month runs on
into the next month, as in SQLite. -/
def daysFromCivil (y0 m d : Int) : Int :=
  let y := if m ≤ 2 then y0 - 1 else y0
  let era := y / 400
  let yoe := y % 400
  let doy := (153 * (if m > 2 then m - 3 else m + 9) + 2) / 5 + d - 1
  let doe := yoe * 365 + yoe / 4 - yoe / 100 + doy
  era * 146097 + doe - 719468

/-- The modifier `'±k years'`: the same month, day and time of day `k` years later. -/
def addYears (k : Int) (t : Int) : Int :=
  match civilFromDays (t / 86400) with
  | (y, m, d) => daysFromCivil (y + k) m d * 86400 + t % 86400

/-- The modifier `'-12 months'`: SQLite lowers the month by 12, then carries
`x = (M - 12) / 12 = -1` years for a month `M ≤ 0`, which leaves the month and lowers
the year by one. -/
def subTwelveMonths (t : Int) : Int := addYears (-1) t

/-- Start of the local day of a wall-clock reading: `date(...)`. -/
def floorDay (l : Int) : Int := l - l % 86400

/-- First day of the month of a wall-clock reading: `strftime('%Y-%m-01', ...)`. -/
def floorMonth (l : Int) : Int :=
  match civilFromDays (l / 86400) with
  | (y, m, _) => daysFromCivil y m 1 * 86400

/-- First day of the year of a wall-clock reading: `strftime('%Y-01-01', ...)`. -/
def floorYear (l : Int) : Int :=
  match civilFromDays (l / 86400) with
  | (y, _, _) => daysFromCivil y 1 1 * 86400

/-- The value of `datadates[0]` once expanded with the instant `t`:
`datetime(t, '-M minutes', '-S seconds', '+R minutes', 'localtime')` with
`M = strftime('%M', t)`, `S = strftime('%S', t)` and `R = round(M/5, 0)*5`, where `M/5`
is SQL integer division. -/
def fiveminuteStart (env : Env) (t : Int) : Int :=
  localtime env
    (t - 60 * strftimeM t - strftimeS t + 60 * (sqlRound0 (strftimeM t / 5) * 5))

/-- The value of `datadates[i]` once expanded with the instant `t`. -/
def bucketStart (env : Env) (r : Res) (t : Int) : Int :=
  match r with
  | Res.fiveminute => fiveminuteStart env t
  | Res.hour => localtime env t - localtime env t % 3600
  | Res.day => floorDay (localtime env t)
  | Res.month => floorMonth (localtime env t)
  | Res.year => floorYear (localtime env t)

/-- The right-hand side of `date < ...` in the `delete` of `db_removeoldentries` for each
series: `datetime('now', '-48 hours', 'localtime')`, `datetime('now', '-7 days',
'localtime')`, `date('now', '-30 days', 'localtime')`, `date('now', '-12 months',
'localtime')`, `date('now', '-10 years', 'localtime')`. -/
def horizon (env : Env) : Res → Int
  | Res.fiveminute => localtime env (env.now - 48 * 3600)
  | Res.hour => localtime env (env.now - 7 * 86400)
  | Res.day => floorDay (localtime env (env.now - 30 * 86400))
  | Res.month => floorDay (localtime env (subTwelveMonths env.now))
  | Res.year => floorDay (localtime env (addYears (-10) env.now))

/-- Calendar reading (year, month, day, hour, minute, second) of a date. -/
def ymdhms (l : Int) : Int × Int × Int × Int × Int × Int :=
  match civilFromDays (l / 86400) with
  | (y, m, d) => (y, m, d, l % 86400 / 3600, l / 60 % 60, l % 60)

/-! ## The text of the date expressions -/

/-- The character `'` that opens and closes an SQL string. -/
def quote : Char := Char.ofNat 39

/-- The array `datadates[]`: the C format strings of the five bucket dates. -/
def datadates : Res → String
  | Res.fiveminute => "datetime(%1$s, ('-' || (strftime('%%M', %1$s)) || ' minutes'), ('-' || (strftime('%%S', %1$s)) || ' seconds'), ('+' || (round(strftime('%%M', %1$s)/5,0)*5) || ' minutes'), 'localtime')"
  | Res.hour => "strftime('%%Y-%%m-%%d %%H:00:00', %s, 'localtime')"
  | Res.day => "date(%s, 'localtime')"
  | Res.month => "strftime('%%Y-%%m-01', %s, 'localtime')"
  | Res.year => "strftime('%%Y-01-01', %s, 'localtime')"

/-- The output of C `snprintf(buf, n, fmt, arg)` for a format with the conversions `%%`,
`%s` and `%1$s` and one string argument, before the cut to the buffer size. -/
def expandFormat : List Char → List Char → List Char
  | [], _ => []
  | '%' :: '%' :: rest, arg => '%' :: expandFormat rest arg
  | '%' :: 's' :: rest, arg => arg ++ expandFormat rest arg
  | '%' :: '1' :: '$' :: 's' :: rest, arg => arg ++ expandFormat rest arg
  | c :: rest, arg => c :: expandFormat rest arg

/-- C `snprintf(buf, n, fmt, arg)`: at most `n - 1` characters are kept. -/
def snprintf (n : Nat) (fmt arg : List Char) : List Char :=
  (expandFormat fmt arg).take (n - 1)

/-- The variable `nowdate` of `db_addtraffic_dated`: `datetime(<timestamp>, 'unixepoch')`
for a timestamp above 0, else `'now'`. -/
inductive NowDate where
  | unixepoch (timestamp : Nat)
  | now
  deriving DecidableEq, Repr

/-- The text `snprintf(nowdate, 64, ...)` writes. -/
def NowDate.text : NowDate → List Char
  | NowDate.unixepoch t =>
      ("datetime(".data ++ (Nat.repr t).data ++ ", 'unixepoch')".data).take 63
  | NowDate.now => "'now'".data

/-- The instant the SQL expression `nowdate` denotes; `datetime(t, 'unixepoch')` is NULL
(`none`) for a `t` past 9999-12-31 23:59:59. -/
def NowDate.instant (env : Env) : NowDate → Option Int
  | NowDate.unixepoch t => if (t : Int) ≤ maxInstant then some t else none
  | NowDate.now => some env.now

/-- The value of `datetime(nowdate, 'localtime')`. -/
def datetimeLocal (env : Env) (nowdate : NowDate) : Option Int :=
  (nowdate.instant env).bind (fun t => sqlDate (localtime env t))

/-- The value of `datadates[i]` once expanded with `nowdate`: NULL when `nowdate` is, or
when the local reading the result is formatted from is out of range. -/
def bucketDate (env : Env) (r : Res) (nowdate : NowDate) : Option Int :=
  (nowdate.instant env).bind (fun t =>
    match r with
    | Res.fiveminute => sqlDate (fiveminuteStart env t)
    | Res.hour => (sqlDate (localtime env t)).map (fun _ => bucketStart env Res.hour t)
    | Res.day => (sqlDate (localtime env t)).map (fun _ => bucketStart env Res.day t)
    | Res.month => (sqlDate (localtime env t)).map (fun _ => bucketStart env Res.month t)
    | Res.year => (sqlDate (localtime env t)).map (fun _ => bucketStart env Res.year t))

/-- The date argument a bucket statement receives through `%s`: the format string
`datadates[i]` itself, or `datebuffer`, the string `snprintf(datebuffer, 512,
datadates[i], nowdate)` wrote. -/
inductive DateArg where
  | template (r : Res)
  | formatted (r : Res) (nowdate : NowDate)
  deriving DecidableEq, Repr

/-- The SQL text of a date argument. -/
def DateArg.text : DateArg → List Char
  | DateArg.template r => (datadates r).data
  | DateArg.formatted r nowdate => snprintf 512 (datadates r).data nowdate.text

/-- The value of a date argument: `some v` for an expanded expression, `v` being its
date or NULL (`none`); a format string is not an SQL expression and has no value. -/
def DateArg.eval (env : Env) : DateArg → Option (Option Int)
  | DateArg.template _ => none
  | DateArg.formatted r nowdate => some (bucketDate env r nowdate)

/-- Where SQLite's parser stands inside an expression: before an operand, after one,
inside a string, after a `'` read inside a string, inside a number, inside a name, or
after the first `|` of `||`. -/
inductive Lex where
  | operand
  | operator
  | str
  | strq
  | num
  | ident
  | bar
  deriving DecidableEq, Repr

/-- The parser after a complete operand, reading `c` at parenthesis depth `d`: a blank,
a comma or a closing parenthesis inside parentheses, or a binary operator. -/
def afterOperand (d : Nat) (c : Char) : Option (Lex × Nat) :=
  if c = ' ' then some (Lex.operator, d)
  else if c = ',' then (if 0 < d then some (Lex.operand, d) else none)
  else if c = ')' then (if 0 < d then some (Lex.operator, d - 1) else none)
  else if c = '+' ∨ c = '-' ∨ c = '*' ∨ c = '/' ∨ c = '%' then some (Lex.operand, d)
  else if c = '|' then some (Lex.bar, d)
  else none

/-- One character of an SQL expression. Before an operand only a blank, a sign, an
opening parenthesis or the start of a string, number or name is grammatical: a `%` there
is a syntax error. -/
def lexStep (s : Lex) (d : Nat) (c : Char) : Option (Lex × Nat) :=
  match s with
  | Lex.operand =>
      if c = ' ' ∨ c = '+' ∨ c = '-' then some (Lex.operand, d)
      else if c = quote then some (Lex.str, d)
      else if c.isDigit then some (Lex.num, d)
      else if c.isAlpha ∨ c = '_' then some (Lex.ident, d)
      else if c = '(' then some (Lex.operand, d + 1)
      else none
  | Lex.operator => afterOperand d c
  | Lex.str => if c = quote then some (Lex.strq, d) else some (Lex.str, d)
  | Lex.strq => if c = quote then some (Lex.str, d) else afterOperand d c
  | Lex.num => if c.isDigit ∨ c = '.' then some (Lex.num, d) else afterOperand d c
  | Lex.ident =>
      if c.isAlphanum ∨ c = '_' then some (Lex.ident, d)
      else if c = '(' then some (Lex.operand, d + 1)
      else afterOperand d c
  | Lex.bar => if c = '|' then some (Lex.operand, d) else none

/-- Run the parser over a text. -/
def lexRun : Lex → Nat → List Char → Option (Lex × Nat)
  | s, d, [] => some (s, d)
  | s, d, c :: rest =>
      match lexStep s d c with
      | some (s1, d1) => lexRun s1 d1 rest
      | none => none

/-- Whether `sqlite3_prepare_v2` accepts a text as an expression built from calls,
strings, numbers, parentheses and binary operators: it ends after a complete operand with
every parenthesis closed. -/
def sqlExprOk (text : List Char) : Bool :=
  match lexRun Lex.operand 0 text with
  | some (s, d) => (s = Lex.operator ∨ s = Lex.strq ∨ s = Lex.num ∨ s = Lex.ident) ∧ d = 0
  | none => false

/-! ## The text of the statements that carry a C string -/

/-- The conversion `%q` of `sqlite3_snprintf`: the string with every `'` doubled. -/
def escapeq : List Char → List Char
  | [] => []
  | c :: cs => if c = quote then quote :: quote :: escapeq cs else c :: escapeq cs

/-- The function `sqlite3_snprintf(n, sql, ...)`: of the formatted text at most `n - 1`
characters are written. -/
def sqlite3_snprintf (n : Nat) (text : List Char) : List Char := text.take (n - 1)

/-- SQLite reading a string literal from just after its opening quote: the string it
denotes (`''` is one `'`) and the text after the closing quote; `none` when the text ends
before a closing quote. -/
def readLiteral : List Char → Option (List Char × List Char)
  | [] => none
  | [c] => if c = quote then some ([], []) else none
  | c :: c2 :: cs =>
      if c = quote then
        if c2 = quote then
          match readLiteral cs with
          | some (v, rest) => some (quote :: v, rest)
          | none => none
        else some ([], c2 :: cs)
      else
        match readLiteral (c2 :: cs) with
        | some (v, rest) => some (c :: v, rest)
        | none => none

/-- SQLite reading the literal of a condition `name='...'` that ends a statement: the
name compared with, when the literal is closed and only a `;` or nothing follows. -/
def readNameLiteral (text : List Char) : Option String :=
  match readLiteral text with
  | some (v, rest) => if rest = [] ∨ rest = [';'] then some (String.mk v) else none
  | none => none

/-- The text `db_getinterfaceid` writes into `char sql[512]`. -/
def selectIdText (iface : String) : List Char :=
  sqlite3_snprintf 512
    ("select id from interface where name='".data ++ escapeq iface.data ++ [quote])

/-- The name the select of `db_getinterfaceid` looks for, read from the text in the
buffer after its 37 fixed characters; `none` when SQLite rejects the text. -/
def selectIdName (iface : String) : Option String :=
  readNameLiteral ((selectIdText iface).drop 37)

/-- The text `db_getinfo` writes into `char sql[512]`. -/
def selectValueText (name : String) : List Char :=
  sqlite3_snprintf 512
    ("select value from info where name='".data ++ escapeq name.data ++ "';".data)

/-- The name the select of `db_getinfo` looks for, read from the text in the buffer after
its 35 fixed characters; `none` when SQLite rejects the text. -/
def selectValueName (name : String) : Option String :=
  readNameLiteral ((selectValueText name).drop 35)

/-- The whole text of the insert of `db_addinterface`, before the cut to `sql[1024]`. -/
def addInterfaceText (iface : String) : List Char :=
  "insert into interface (name, active, created, updated, rxcounter, txcounter, rxtotal, txtotal) values ('".data
    ++ escapeq iface.data
    ++ "', 1, datetime('now', 'localtime'), datetime('now', 'localtime'), 0, 0, 0, 0);".data

/-- The whole text of the insert of `db_setinfo`, before the cut to `sql[512]`. -/
def insertInfoText (name value : String) : List Char :=
  "insert into info (name, value) values ('".data ++ escapeq name.data ++ "', '".data
    ++ escapeq value.data ++ "');".data

/-- Whether SQLite accepts an `insert ... values (...);` cut to a buffer of `n` bytes:
the cut text must still have the closing parenthesis, so be the whole text or the whole
text less its `;`. Any shorter cut ends inside the parentheses or inside a string. -/
def insertAccepted (n : Nat) (full : List Char) : Bool :=
  sqlite3_snprintf n full = full ∨ sqlite3_snprintf n full ++ [';'] = full

/-- The text the update of `db_setinfo` writes into `char sql[512]`. -/
def updateInfoText (value name : String) : List Char :=
  sqlite3_snprintf 512
    ("update info set value='".data ++ escapeq value.data ++ "' where name='".data
      ++ escapeq name.data ++ "';".data)

/-- Which rows an update of `info` changes: all (no `where`), those whose name SQLite
takes for true (`where name`), or those of one name (`where name='...'`). -/
inductive InfoWhere where
  | all
  | truthy
  | named (name : String)
  deriving DecidableEq, Repr

/-- SQLite reading the text of the update of `db_setinfo` after its 23 fixed characters:
the value to store and the rows to change. After the value literal the text may end
(with or without a blank), go on to ` where name` and end, or go on to
` where name='...'`; every other cut is a syntax error (`none`). -/
def readUpdateInfo (text : List Char) : Option (String × InfoWhere) :=
  match readLiteral (text.drop 23) with
  | none => none
  | some (v, rest) =>
      if rest = [] ∨ rest = [' '] then some (String.mk v, InfoWhere.all)
      else if rest = " where name".data then some (String.mk v, InfoWhere.truthy)
      else if rest.take 13 = " where name='".data then
        match readNameLiteral (rest.drop 13) with
        | some name => some (String.mk v, InfoWhere.named name)
        | none => none
      else none

/-- Whether a row of `info` is one the update changes. -/
def InfoWhere.holds (env : Env) : InfoWhere → InfoRow → Bool
  | InfoWhere.all, _ => true
  | InfoWhere.truthy, row => env.textTrue row.name
  | InfoWhere.named name, row => row.name = name

/-! ## Statements -/

/-- The SQL statements `dbsql.c` formats and hands to `db_exec`. -/
inductive Stmt where
  /-- The statement of `db_addinterface`, formatted into `sql[1024]`: `insert into
  interface (name, active, created, updated, rxcounter, txcounter, rxtotal, txtotal) values
  ('%q', 1, now, now, 0, 0, 0, 0);`, `now` being `datetime('now', 'localtime')`. -/
  | addInterface (name : String)
  /-- The statement of `db_setcounters`: `update interface set rxcounter=rx, txcounter=tx
  where id=ifaceid`. -/
  | setCounters (rx tx : Nat) (ifaceid : Int)
  /-- The first statement of `db_setinfo`, formatted into `sql[512]`: `update info set
  value='%q' where name='%q';`. -/
  | updateInfo (value name : String)
  /-- The second statement of `db_setinfo`, formatted into `sql[512]`: `insert into info
  (name, value) values ('%q', '%q');`. -/
  | insertInfo (name value : String)
  /-- The total update: `update interface set rxtotal=rxtotal+rx, txtotal=txtotal+tx,
  updated=datetime(nowdate, 'localtime'), active=1 where id=ifaceid`. -/
  | updateTotals (rx tx : Nat) (nowdate : NowDate) (ifaceid : Int)
  /-- The bucket insert: `insert or ignore into datatables[i] (interface, date, rx, tx)
  values (ifaceid, date, 0, 0)`. -/
  | insertBucket (r : Res) (ifaceid : Int) (date : DateArg)
  /-- The bucket update: `update datatables[i] set rx=rx+rx, tx=tx+tx where
  interface=ifaceid and date=date`. -/
  | updateBucket (r : Res) (rx tx : Nat) (ifaceid : Int) (date : DateArg)
  /-- The statements of `db_removeoldentries`: `delete from datatables[i] where date <
  horizon`. -/
  | deleteOld (r : Res)
  deriving DecidableEq, Repr

/-- The largest of a list of row ids. -/
def maxId : List Int → Option Int
  | [] => none
  | x :: xs =>
      match maxId xs with
      | none => some x
      | some m => some (max x m)

/-- The rowid SQLite gives a row inserted without one: 1 in an empty table, else one more
than the largest rowid in use. -/
def nextRowid (ids : List Int) : Int :=
  match maxId ids with
  | none => 1
  | some m => m + 1

/-- The row `db_addinterface` inserts: active, created and updated now, counters and
totals zero. -/
def freshInterface (env : Env) (name : String) (id : Int) : IfaceRow :=
  { id := id, name := name, ifalias := none, active := 1,
    created := localtime env env.now, updated := localtime env env.now,
    rxcounter := Cell.int 0, txcounter := Cell.int 0,
    rxtotal := Cell.int 0, txtotal := Cell.int 0 }

/-- The rows of `interface` after `update interface set rxcounter=rx, txcounter=tx where
id=ifaceid`. -/
def storeCounters (rx tx : Nat) (ifaceid : Int) (rows : List IfaceRow) : List IfaceRow :=
  rows.map (fun row =>
    if row.id = ifaceid then
      { row with rxcounter := Cell.ofLiteral rx, txcounter := Cell.ofLiteral tx }
    else row)

/-- The rows of `interface` after `update interface set rxtotal=rxtotal+rx,
txtotal=txtotal+tx, updated=updated, active=1 where id=ifaceid`. -/
def addTotals (rx tx : Nat) (updated : Int) (ifaceid : Int) (rows : List IfaceRow) :
    List IfaceRow :=
  rows.map (fun row =>
    if row.id = ifaceid then
      { row with rxtotal := row.rxtotal.add rx, txtotal := row.txtotal.add tx,
                 updated := updated, active := 1 }
    else row)

/-- The rows of `info` after `update info set value=value` on the rows `p` holds of. -/
def setValueWhere (p : InfoRow → Bool) (value : String) (rows : List InfoRow) :
    List InfoRow :=
  rows.map (fun row => if p row then { row with value := value } else row)

/-- The rows of `info` after `update info set value=value where name=name`. -/
def setValue (name value : String) (rows : List InfoRow) : List InfoRow :=
  setValueWhere (fun row => row.name = name) value rows

/-- The rows of a series after `update ... set rx=rx+rx, tx=tx+tx where
interface=ifaceid and date=d`. -/
def addBucket (rx tx : Nat) (ifaceid d : Int) (rows : List BucketRow) : List BucketRow :=
  rows.map (fun row =>
    if row.interface = ifaceid ∧ row.date = d then
      { row with rx := row.rx.add rx, tx := row.tx.add tx }
    else row)

/-- What SQLite does with the text of a statement: the connection after it, or `none`
when the statement is rejected (the text left in the buffer is malformed, or a constraint
fails), in which case it leaves the tables as they are. The statements with a `%q` are
read from the text cut to their buffer (`insertAccepted`, `readUpdateInfo`); a date that
is NULL violates `NOT NULL` when a row would receive it and matches no row in a
comparison. -/
def Stmt.step (env : Env) (c : Conn) : Stmt → Option Conn
  | Stmt.addInterface name =>
      if insertAccepted 1024 (addInterfaceText name) then
        match sqlDate (localtime env env.now) with
        | none => none
        | some _ =>
            if c.tables.interface.any (fun row => row.name = name) then none
            else
              let id := nextRowid (c.tables.interface.map (fun row => row.id))
              some { c with
                tables := { c.tables with
                  interface := c.tables.interface ++ [freshInterface env name id] },
                changes := 1, lastRowid := id }
      else none
  | Stmt.setCounters rx tx ifaceid =>
      some { c with
        tables := { c.tables with
          interface := storeCounters rx tx ifaceid c.tables.interface },
        changes := (c.tables.interface.filter (fun row => row.id = ifaceid)).length }
  | Stmt.updateInfo value name =>
      match readUpdateInfo (updateInfoText value name) with
      | none => none
      | some (v, w) =>
          some { c with
            tables := { c.tables with info := setValueWhere (w.holds env) v c.tables.info },
            changes := (c.tables.info.filter (w.holds env)).length }
  | Stmt.insertInfo name value =>
      if insertAccepted 512 (insertInfoText name value) then
        if c.tables.info.any (fun row => row.name = name) then none
        else
          let id := nextRowid (c.tables.info.map (fun row => row.id))
          some { c with
            tables := { c.tables with
              info := c.tables.info ++ [{ id := id, name := name, value := value }] },
            changes := 1, lastRowid := id }
      else none
  | Stmt.updateTotals rx tx nowdate ifaceid =>
      match datetimeLocal env nowdate with
      | some updated =>
          some { c with
            tables := { c.tables with
              interface := addTotals rx tx updated ifaceid c.tables.interface },
            changes := (c.tables.interface.filter (fun row => row.id = ifaceid)).length }
      | none =>
          if c.tables.interface.any (fun row => row.id = ifaceid) then none
          else some { c with changes := 0 }
  | Stmt.insertBucket r ifaceid date =>
      if sqlExprOk date.text then
        match date.eval env with
        | none => none
        | some none => some { c with changes := 0 }
        | some (some d) =>
            if (c.tables.series r).any (fun row => row.interface = ifaceid ∧ row.date = d)
            then some { c with changes := 0 }
            else
              let id := nextRowid ((c.tables.series r).map (fun row => row.id))
              let row : BucketRow :=
                { id := id, interface := ifaceid, date := d,
                  rx := Cell.int 0, tx := Cell.int 0 }
              some { c with
                tables := c.tables.setSeries r (c.tables.series r ++ [row]),
                changes := 1, lastRowid := id }
      else none
  | Stmt.updateBucket r rx tx ifaceid date =>
      if sqlExprOk date.text then
        match date.eval env with
        | none => none
        | some none => some { c with changes := 0 }
        | some (some d) =>
            some { c with
              tables := c.tables.setSeries r (addBucket rx tx ifaceid d (c.tables.series r)),
              changes := ((c.tables.series r).filter
                (fun row => row.interface = ifaceid ∧ row.date = d)).length }
      else none
  | Stmt.deleteOld r =>
      some { c with
        tables := c.tables.setSeries r
          ((c.tables.series r).filter (fun row => ¬ row.date < horizon env r)),
        changes := ((c.tables.series r).filter (fun row => row.date < horizon env r)).length }

/-! ## The functions of `dbsql.c` -/

/-- The function `db_exec`: prepare, step and finalize one statement; 1 when SQLite
accepted it, 0 when any of the three calls reported an error. -/
def db_exec (env : Env) (c : Conn) (sql : Stmt) : Int × Conn :=
  match sql.step env c with
  | some c1 => (1, c1)
  | none => (0, c)

/-- The function `db_begintransaction`: `BEGIN`, an error inside an open transaction. -/
def db_begintransaction (c : Conn) : Int × Conn :=
  match c.txn with
  | some _ => (0, c)
  | none => (1, { c with txn := some c.tables })

/-- The function `db_committransaction`: `COMMIT`, an error when no transaction is open. -/
def db_committransaction (c : Conn) : Int × Conn :=
  match c.txn with
  | some _ => (1, { c with txn := none })
  | none => (0, c)

/-- The function `db_rollbacktransaction`: `ROLLBACK` puts back the tables saved at
`BEGIN`; an error when no transaction is open. -/
def db_rollbacktransaction (c : Conn) : Int × Conn :=
  match c.txn with
  | some saved => (1, { c with tables := saved, txn := none })
  | none => (0, c)

/-- The function `db_addinterface`: the insert, formatted into `sql[1024]`, and its
`db_exec`. -/
def db_addinterface (env : Env) (c : Conn) (iface : String) : Int × Conn :=
  db_exec env c (Stmt.addInterface iface)

/-- The function `db_getinterfacecount`: `select count(*) from interface`. -/
def db_getinterfacecount (c : Conn) : Nat := c.tables.interface.length

/-- The query `select id from interface where name=iface`: the first row of the result. -/
def selectInterfaceId (t : Tables) (iface : String) : Option Int :=
  (t.interface.find? (fun row => row.name = iface)).map (fun row => row.id)

/-- The first part of `db_getinterfaceid`: `ifaceid` stays 0 when the text in `sql[512]`
is rejected at prepare or the select returns no row. -/
def lookupInterfaceId (t : Tables) (iface : String) : Int :=
  match selectIdName iface with
  | none => 0
  | some name =>
      match selectInterfaceId t name with
      | some id => id
      | none => 0

/-- The function `db_getinterfaceid`: the select formatted into `sql[512]`
(`lookupInterfaceId`), then `db_addinterface` and `sqlite3_last_insert_rowid` when
`ifaceid` is 0 and `createifnotfound` is set. -/
def db_getinterfaceid (env : Env) (c : Conn) (iface : String) (createifnotfound : Bool) :
    Int × Conn :=
  let ifaceid : Int := lookupInterfaceId c.tables iface
  if ifaceid = 0 ∧ createifnotfound = true then
    match db_addinterface env c iface with
    | (rc, c1) => if rc = 0 then (0, c1) else (c1.lastRowid, c1)
  else (ifaceid, c)

/-- The function `db_setcounters`. -/
def db_setcounters (env : Env) (c : Conn) (iface : String) (rxcounter txcounter : Nat) :
    Int × Conn :=
  match db_getinterfaceid env c iface false with
  | (ifaceid, c1) =>
      if ifaceid = 0 then (0, c1)
      else db_exec env c1 (Stmt.setCounters rxcounter txcounter ifaceid)

/-- The function `db_getcounters`: the result and the two outputs `*rxcounter`,
`*txcounter`. -/
def db_getcounters (env : Env) (c : Conn) (iface : String) : Int × Nat × Nat :=
  match db_getinterfaceid env c iface false with
  | (ifaceid, c1) =>
      if ifaceid = 0 then (0, 0, 0)
      else
        match c1.tables.interface.find? (fun row => row.id = ifaceid) with
        | some row =>
            (1, toUint64 row.rxcounter.column_int64, toUint64 row.txcounter.column_int64)
        | none => (1, 0, 0)

/-- The function `db_setinfo`: the update formatted into `sql[512]`, then, when it changed
no row and `createifnotfound` is set, the insert formatted into `sql[512]`. -/
def db_setinfo (env : Env) (c : Conn) (name value : String) (createifnotfound : Bool) :
    Int × Conn :=
  match db_exec env c (Stmt.updateInfo value name) with
  | (rc, c1) =>
      if rc = 0 ∨ (c1.changes = 0 ∧ createifnotfound = false) then (0, c1)
      else if c1.changes = 0 ∧ createifnotfound = true then
        db_exec env c1 (Stmt.insertInfo name value)
      else (rc, c1)

/-- Modelled from the spec: the helper `strncpy_nt(dest, src, n)`, declared in `misc.h`
and not among the sources. The spec says nothing of it beyond what `db_getinfo` returns, so
it is the copy its call requires: into a buffer of `n` bytes and ended by a NUL byte, hence
at most `n - 1` characters of the source. -/
def strncpy_nt (src : String) (n : Nat) : String := String.mk (src.data.take (n - 1))

/-- The function `db_getinfo`: the value of the first row `select value from info where
name=name` returns, copied into `static char buffer[64]`; the empty string when the text
in `sql[512]` is rejected at prepare or the select returns no row. -/
def db_getinfo (c : Conn) (name : String) : String :=
  match selectValueName name with
  | none => ""
  | some key =>
      match c.tables.info.find? (fun row => row.name = key) with
      | some row => strncpy_nt row.value 64
      | none => ""

/-- The body of the loop `for (i=0; i<5; i++)` of `db_addtraffic_dated`: the insert
receives `datadates[i]`, the update `datebuffer`; neither result of `db_exec` is read. -/
def addtrafficBucket (env : Env) (rx tx : Nat) (ifaceid : Int) (nowdate : NowDate)
    (c : Conn) (r : Res) : Conn :=
  let c1 := (db_exec env c (Stmt.insertBucket r ifaceid (DateArg.template r))).2
  (db_exec env c1 (Stmt.updateBucket r rx tx ifaceid (DateArg.formatted r nowdate))).2

/-- The function `db_addtraffic_dated`. -/
def db_addtraffic_dated (env : Env) (c : Conn) (iface : String) (rx tx timestamp : Nat) :
    Int × Conn :=
  if rx = 0 ∧ tx = 0 then (1, c)
  else
    match db_getinterfaceid env c iface true with
    | (ifaceid, c1) =>
        if ifaceid = 0 then (0, c1)
        else
          let nowdate := if timestamp > 0 then NowDate.unixepoch timestamp else NowDate.now
          match db_begintransaction c1 with
          | (ok, c2) =>
              if ok = 0 then (0, c2)
              else
                let c3 := (db_exec env c2 (Stmt.updateTotals rx tx nowdate ifaceid)).2
                let c4 := Res.all.foldl (addtrafficBucket env rx tx ifaceid nowdate) c3
                db_committransaction c4

/-- The function `db_addtraffic`. -/
def db_addtraffic (env : Env) (c : Conn) (iface : String) (rx tx : Nat) : Int × Conn :=
  db_addtraffic_dated env c iface rx tx 0

/-- The function `db_removeoldentries`: five deletes between `BEGIN` and `COMMIT`, no
result of `db_exec` read. -/
def db_removeoldentries (env : Env) (c : Conn) : Int × Conn :=
  match db_begintransaction c with
  | (ok, c1) =>
      if ok = 0 then (0, c1)
      else
        let c2 := Res.all.foldl (fun c r => (db_exec env c (Stmt.deleteOld r)).2) c1
        db_committransaction c2

/-! ## Sample databases -/

/-- The tables right after `db_create`: all empty. -/
def emptyTables : Tables :=
  { info := [], interface := [], fiveminute := [], hour := [], day := [], month := [],
    year := [] }

/-- A connection to a database right after `db_create`. -/
def emptyConn : Conn := { tables := emptyTables, txn := none, changes := 0, lastRowid := 0 }

/-- A value of 64 characters. -/
def longValue : String := String.mk (List.replicate 64 'v')

/-- The number of bytes the conversion `%q` writes for a string: one for each character
and one more for each `'`. -/
def escapedLength (s : String) : Nat := (escapeq s.data).length

/-- A name of 600 characters. -/
def longName : String := String.mk (List.replicate 600 'e')

/-- A name of 473 characters, the longest the select of `db_getinterfaceid` holds whole. -/
def fullName : String := String.mk (List.replicate 473 'e')

/-- The name `fullName` followed by `'x`. In `sql[512]` the cut falls between the two
quotes `%q` writes for its `'`, and the text left is the select of `fullName`. -/
def cutName : String := String.mk (List.replicate 473 'e' ++ [quote, 'x'])

/-- A value of 464 characters. With the key `dbversion'x`, the cut of the update of
`db_setinfo` to `sql[512]` falls between the two quotes `%q` writes for the `'` of the key,
and the text left is the update of the key `dbversion`. -/
def cutValue : String := String.mk (List.replicate 464 'v')


/-- What holds of table `interface` in a database this code has filled: `id` is the
primary key, `name` is unique, and the rowids SQLite hands out are positive. -/
def IfaceWF (rows : List IfaceRow) : Prop :=
  (∀ row ∈ rows, 0 < row.id) ∧ (rows.map (fun row => row.id)).Nodup ∧
    (rows.map (fun row => row.name)).Nodup

/-- A connection whose table `interface` has the one row `eth0`, as `db_addinterface`
made it at time 1710000000. -/
def eth0Conn : Conn :=
  { emptyConn with
    tables := { emptyTables with
      interface := [freshInterface { now := 1710000000, tz := 0 } "eth0" 1] },
    lastRowid := 1 }

/-- The retention horizons as the retention rule words them: the present moment less
48 hours, 7 days, 30 days, 12 months and 10 years, in local time, none rounded to a
calendar date. -/
def statedHorizon (env : Env) : Res → Int
  | Res.fiveminute => localtime env (env.now - 48 * 3600)
  | Res.hour => localtime env (env.now - 7 * 86400)
  | Res.day => localtime env (env.now - 30 * 86400)
  | Res.month => localtime env (subTwelveMonths env.now)
  | Res.year => localtime env (addYears (-10) env.now)

/-- The day bucket of 2026-10-01 of interface 1. -/
def octoberFirst : BucketRow :=
  { id := 1, interface := 1, date := 1790812800, rx := Cell.int 100, tx := Cell.int 50 }

/-- A connection whose series `day` has the one row `octoberFirst`. -/
def dayConn : Conn :=
  { eth0Conn with tables := { eth0Conn.tables with day := [octoberFirst] } }

/-- A connection whose series `month` has the one row of 2025-10-01. -/
def monthConn : Conn :=
  { eth0Conn with
    tables := { eth0Conn.tables with
      month := [{ id := 1, interface := 1, date := 1759276800,
                  rx := Cell.int 100, tx := Cell.int 50 }] } }

/-- A connection whose series `year` has the one row of 2016-01-01. -/
def yearConn : Conn :=
  { eth0Conn with
    tables := { eth0Conn.tables with
      year := [{ id := 1, interface := 1, date := 1451606400,
                 rx := Cell.int 100, tx := Cell.int 50 }] } }

/-- The clock at 2026-10-31 12:00:00 in the zone UTC. -/
def octoberNoon : Env := { now := 1793448000, tz := 0 }

/-- One call of a run of the traffic functions: `db_addtraffic_dated` with its deltas and
timestamp, or `db_removeoldentries`, each at its own clock reading. -/
inductive Op where
  | addtraffic (env : Env) (rx tx timestamp : Nat)
  | removeoldentries (env : Env)

/-- Run the calls in order on the interface `iface`; the flag tells whether every
`db_addtraffic_dated` returned 1. -/
def runOps (iface : String) : Conn → List Op → Bool × Conn
  | c, [] => (true, c)
  | c, Op.addtraffic env rx tx timestamp :: ops =>
      (decide ((db_addtraffic_dated env c iface rx tx timestamp).1 = 1) &&
          (runOps iface (db_addtraffic_dated env c iface rx tx timestamp).2 ops).1,
        (runOps iface (db_addtraffic_dated env c iface rx tx timestamp).2 ops).2)
  | c, Op.removeoldentries env :: ops => runOps iface (db_removeoldentries env c).2 ops

/-- Whether the dates a call `db_addtraffic_dated(iface, rx, tx, timestamp)` stores are
dates SQLite can form: the local reading of the clock (`created` and `updated` of a new
interface row) and the local reading of the timestamp, or of the clock for the timestamp
0 (`updated` of the total update). -/
def datesInRange (env : Env) (timestamp : Nat) : Bool :=
  (sqlDate (localtime env env.now)).isSome &&
    (datetimeLocal env
      (if timestamp > 0 then NowDate.unixepoch timestamp else NowDate.now)).isSome

/-- Whether every `db_addtraffic_dated` of a run has its dates in range. -/
def opsInRange : List Op → Bool
  | [] => true
  | Op.addtraffic env _ _ timestamp :: ops => datesInRange env timestamp && opsInRange ops
  | Op.removeoldentries _ :: ops => opsInRange ops

/-- The sum of the `rx` deltas of a run. -/
def sumRx : List Op → Nat
  | [] => 0
  | Op.addtraffic _ rx _ _ :: ops => rx + sumRx ops
  | Op.removeoldentries _ :: ops => sumRx ops

/-- The sum of the `tx` deltas of a run. -/
def sumTx : List Op → Nat
  | [] => 0
  | Op.addtraffic _ _ tx _ :: ops => tx + sumTx ops
  | Op.removeoldentries _ :: ops => sumTx ops

/-- The lifetime totals `rxtotal`, `txtotal` of an interface; zero for a name that has no
row yet. -/
def totalsOf (t : Tables) (iface : String) : Cell × Cell :=
  match t.interface.find? (fun row => row.name = iface) with
  | some row => (row.rxtotal, row.txtotal)
  | none => (Cell.int 0, Cell.int 0)

/-- The clock at 2024-03-15 14:38:20 in the zone UTC. -/
def marchEnv : Env := { now := 1710513500, tz := 0 }

/-- The connection of `db_addtraffic_dated` just before `COMMIT`: after `BEGIN`, the
total update and the five rounds of the bucket loop, for interface id `ifaceid`. -/
def beforeCommit (env : Env) (c1 : Conn) (rx tx : Nat) (ifaceid : Int) (nowdate : NowDate) :
    Conn :=
  Res.all.foldl (addtrafficBucket env rx tx ifaceid nowdate)
    (db_exec env (db_begintransaction c1).2 (Stmt.updateTotals rx tx nowdate ifaceid)).2

/-- Which rows a series has: id, interface and date of each, without the counts. -/
def bucketKeys (rows : List BucketRow) : List (Int × Int × Int) :=
  rows.map (fun row => (row.id, row.interface, row.date))
/-! ## Statement texts that fit their buffer -/

/-- Reading back an escaped string: the literal `%q` wrote and its closing quote give the
string itself, and what follows the closing quote is left over. -/
theorem readLiteral_escapeq (s rest : List Char) (hrest : rest.head? ≠ some quote) :
    readLiteral (escapeq s ++ quote :: rest) = some (s, rest) := by
  induction s with
  | nil =>
      cases rest with
      | nil => simp [escapeq, readLiteral]
      | cons c2 cs =>
          have hc2 : c2 ≠ quote := by
            intro h
            exact hrest (by simp [h])
          simp [escapeq, readLiteral, hc2]
  | cons c s ih =>
      by_cases hc : c = quote
      · subst hc
        simp [escapeq, readLiteral, ih]
      · obtain ⟨c2, cs, h⟩ : ∃ c2 cs, escapeq s ++ quote :: rest = c2 :: cs := by
          cases hs : escapeq s with
          | nil => exact ⟨quote, rest, rfl⟩
          | cons c2 cs => exact ⟨c2, cs ++ quote :: rest, rfl⟩
        have hstep : readLiteral (c :: c2 :: cs) =
            match readLiteral (c2 :: cs) with
            | some (v, rest) => some (c :: v, rest)
            | none => none := by
          simp [readLiteral, hc]
        show readLiteral (escapeq (c :: s) ++ quote :: rest) = _
        have hesc : escapeq (c :: s) = c :: escapeq s := by simp [escapeq, hc]
        rw [hesc, List.cons_append, h, hstep, ← h, ih]

/-- A name whose escaped form is at most 473 bytes long: the select of
`db_getinterfaceid` fits `sql[512]` and looks for the name itself. -/
theorem selectIdName_fit (iface : String) (hfit : escapedLength iface ≤ 473) :
    selectIdName iface = some iface := by
  have hlen : "select id from interface where name='".data.length = 37 := by decide
  have hfit2 : (escapeq iface.data).length ≤ 473 := hfit
  unfold selectIdName selectIdText sqlite3_snprintf
  rw [List.take_of_length_le (by simp only [List.length_append, hlen, List.length_singleton]; omega),
    List.append_assoc, List.drop_left' hlen]
  unfold readNameLiteral
  rw [readLiteral_escapeq iface.data [] (by simp)]
  simp

/-- A name whose escaped form is at most 474 bytes long: the select of `db_getinfo` fits
`sql[512]` and looks for the name itself. -/
theorem selectValueName_fit (name : String) (hfit : escapedLength name ≤ 474) :
    selectValueName name = some name := by
  have hlen : "select value from info where name='".data.length = 35 := by decide
  have hend : "';".data = quote :: [';'] := by decide
  have hfit2 : (escapeq name.data).length ≤ 474 := hfit
  unfold selectValueName selectValueText sqlite3_snprintf
  rw [List.take_of_length_le (by
      simp only [List.length_append, hlen, hend, List.length_cons, List.length_nil]; omega),
    List.append_assoc, List.drop_left' hlen, hend]
  unfold readNameLiteral
  rw [readLiteral_escapeq name.data [';'] (by decide)]
  simp

/-- A value and a name whose escaped forms are together at most 472 bytes long: the update
of `db_setinfo` fits `sql[512]`, stores the value itself and changes the rows of the name
itself. -/
theorem readUpdateInfo_fit (value name : String)
    (hfit : escapedLength value + escapedLength name ≤ 472) :
    readUpdateInfo (updateInfoText value name) = some (value, InfoWhere.named name) := by
  have hlen : "update info set value='".data.length = 23 := by decide
  have hmid : "' where name='".data = quote :: " where name='".data := by decide
  have hmidlen : " where name='".data.length = 13 := by decide
  have h11 : " where name".data.length = 11 := by decide
  have hend : "';".data = quote :: [';'] := by decide
  have hfit2 : (escapeq value.data).length + (escapeq name.data).length ≤ 472 := hfit
  have hhead : (" where name='".data ++ (escapeq name.data ++ quote :: [';'])).head?
      ≠ some quote := by
    have h : (" where name='".data ++ (escapeq name.data ++ quote :: [';'])).head?
        = some ' ' := rfl
    rw [h]
    decide
  have hne1 : ¬ (" where name='".data ++ (escapeq name.data ++ quote :: [';']) = [] ∨
      " where name='".data ++ (escapeq name.data ++ quote :: [';']) = [' ']) := by
    intro h
    rcases h with h | h
    · have := congrArg List.length h
      simp only [List.length_append, hmidlen, List.length_cons, List.length_nil] at this
      omega
    · have := congrArg List.length h
      simp only [List.length_append, hmidlen, List.length_cons, List.length_nil] at this
      omega
  have hne2 : ¬ (" where name='".data ++ (escapeq name.data ++ quote :: [';'])
      = " where name".data) := by
    intro h
    have := congrArg List.length h
    simp only [List.length_append, hmidlen, h11, List.length_cons, List.length_nil] at this
    omega
  have htext : updateInfoText value name = "update info set value='".data ++
      (escapeq value.data ++ quote ::
        (" where name='".data ++ (escapeq name.data ++ quote :: [';']))) := by
    have hmid14 : "' where name='".data.length = 14 := by decide
    have hend2 : "';".data.length = 2 := by decide
    have hle : ("update info set value='".data ++ escapeq value.data ++ "' where name='".data
        ++ escapeq name.data ++ "';".data).length ≤ 512 - 1 := by
      simp only [List.length_append, hlen, hmid14, hend2]
      omega
    rw [updateInfoText, sqlite3_snprintf, List.take_of_length_le hle, hmid, hend]
    simp only [List.append_assoc, List.cons_append]
  rw [htext, readUpdateInfo, List.drop_left' hlen, readLiteral_escapeq value.data _ hhead]
  simp only [hne1, hne2, if_false]
  rw [List.take_left' hmidlen, if_pos rfl, List.drop_left' hmidlen]
  rw [readNameLiteral, readLiteral_escapeq name.data [';'] (by decide)]
  simp

/-- A name whose escaped form is at most 841 bytes long: the insert of `db_addinterface`
fits `sql[1024]`. -/
theorem insertAccepted_addInterface (iface : String) (hfit : escapedLength iface ≤ 841) :
    insertAccepted 1024 (addInterfaceText iface) = true := by
  have hpre : "insert into interface (name, active, created, updated, rxcounter, txcounter, rxtotal, txtotal) values ('".data.length = 104 := by
    decide
  have hsuf : "', 1, datetime('now', 'localtime'), datetime('now', 'localtime'), 0, 0, 0, 0);".data.length = 78 := by
    decide
  have hfit2 : (escapeq iface.data).length ≤ 841 := hfit
  unfold insertAccepted sqlite3_snprintf addInterfaceText
  rw [List.take_of_length_le (by simp only [List.length_append, hpre, hsuf]; omega)]
  exact decide_eq_true (Or.inl rfl)

/-- A name and a value whose escaped forms are together at most 464 bytes long: the
insert of `db_setinfo` fits `sql[512]`. -/
theorem insertAccepted_insertInfo (name value : String)
    (hfit : escapedLength name + escapedLength value ≤ 464) :
    insertAccepted 512 (insertInfoText name value) = true := by
  have hpre : "insert into info (name, value) values ('".data.length = 40 := by decide
  have hmid : "', '".data.length = 4 := by decide
  have hsuf : "');".data.length = 3 := by decide
  have hfit2 : (escapeq name.data).length + (escapeq value.data).length ≤ 464 := hfit
  unfold insertAccepted sqlite3_snprintf insertInfoText
  rw [List.take_of_length_le (by simp only [List.length_append, hpre, hmid, hsuf]; omega)]
  exact decide_eq_true (Or.inl rfl)

/-! ## Zero deltas -/

/-- C5. A call of `db_addtraffic_dated` with `rx = 0` and `tx = 0`, for any interface name
and timestamp, and a call of `db_addtraffic` with two zeros, returns 1 and leaves the
connection as it was: every table, so no interface or bucket row is made and no
`updated`, `active` or total changes. -/
theorem db_addtraffic_dated_zero (env : Env) (c : Conn) (iface : String) (timestamp : Nat) :
    db_addtraffic_dated env c iface 0 0 timestamp = (1, c) ∧
      db_addtraffic env c iface 0 0 = (1, c) := by
  constructor <;> simp [db_addtraffic, db_addtraffic_dated]

/-! ## The five-minute bucket -/

/-- The five bucket dates of 2024-03-15 14:37:00 in the zone UTC: 14:35:00, 14:00:00,
2024-03-15, 2024-03-01 and 2024-01-01. -/
theorem bucketStart_march :
    Res.all.map (fun r => ymdhms (bucketStart { now := 0, tz := 0 } r 1710513420)) =
      [(2024, 3, 15, 14, 35, 0), (2024, 3, 15, 14, 0, 0), (2024, 3, 15, 0, 0, 0),
        (2024, 3, 1, 0, 0, 0), (2024, 1, 1, 0, 0, 0)] := by
  decide

/-! ## The table `info` -/

theorem setValue_filter_length (name value : String) (rows : List InfoRow) :
    ((setValue name value rows).filter (fun row => row.name = name)).length
      = (rows.filter (fun row => row.name = name)).length := by
  induction rows with
  | nil => rfl
  | cons row rows ih =>
      by_cases h : row.name = name
      · simpa [setValue, setValueWhere, h] using ih
      · simpa [setValue, setValueWhere, h] using ih

theorem setValue_find (name value : String) (rows : List InfoRow) :
    (setValue name value rows).find? (fun row => row.name = name)
      = (rows.find? (fun row => row.name = name)).map
          (fun row => { row with value := value }) := by
  induction rows with
  | nil => rfl
  | cons row rows ih =>
      by_cases h : row.name = name
      · simp [setValue, setValueWhere, h]
      · simpa [setValue, setValueWhere, h] using ih

theorem filter_name_eq_nil {α : Type} (key : α → String) (name : String) (rows : List α)
    (h : ∀ row ∈ rows, key row ≠ name) :
    rows.filter (fun row => key row = name) = [] := by
  simpa [List.filter_eq_nil_iff] using h

theorem filter_name_length_le_one {α : Type} (key : α → String) (name : String)
    (rows : List α) (h : (rows.map key).Nodup) :
    (rows.filter (fun row => key row = name)).length ≤ 1 := by
  induction rows with
  | nil => simp
  | cons row rows ih =>
      rw [List.map_cons, List.nodup_cons] at h
      by_cases hk : key row = name
      · have hnone : ∀ other ∈ rows, key other ≠ name := by
          intro other hmem heq
          exact h.1 (by rw [hk, ← heq]; exact List.mem_map_of_mem key hmem)
        simp [hk, filter_name_eq_nil key name rows hnone]
      · simpa [hk] using ih h.2

theorem filter_name_pos_of_mem {α : Type} (key : α → String) (name : String)
    (rows : List α) (row : α) (hmem : row ∈ rows) (hk : key row = name) :
    0 < (rows.filter (fun row => key row = name)).length := by
  apply List.length_pos_of_mem (a := row)
  simp [List.mem_filter, hmem, hk]

theorem find_name_eq_none {α : Type} (key : α → String) (name : String) (rows : List α)
    (h : ∀ row ∈ rows, key row ≠ name) :
    rows.find? (fun row => key row = name) = none := by
  simpa [List.find?_eq_none] using h

theorem find_name_isSome {α : Type} (key : α → String) (name : String) (rows : List α)
    (row : α) (hmem : row ∈ rows) (hk : key row = name) :
    ∃ found, rows.find? (fun row => key row = name) = some found ∧ key found = name := by
  cases hf : rows.find? (fun row => key row = name) with
  | none =>
      rw [List.find?_eq_none] at hf
      exact absurd (by simpa using hk) (hf row hmem)
  | some found =>
      exact ⟨found, rfl, by simpa using List.find?_some hf⟩

/-- The copy into a 64-byte buffer keeps a string of at most 63 characters whole. -/
theorem strncpy_nt_short (value : String) (h : value.length ≤ 63) :
    strncpy_nt value 64 = value := by
  have hd : value.data.length ≤ 63 := h
  show String.mk (value.data.take 63) = value
  rw [List.take_of_length_le hd]

theorem setValue_of_absent (name value : String) (rows : List InfoRow)
    (h : ∀ row ∈ rows, row.name ≠ name) : setValue name value rows = rows := by
  unfold setValue setValueWhere
  conv_rhs => rw [← List.map_id rows]
  apply List.map_congr_left
  intro row hrow
  simp [h row hrow]

/-- The rows the update of `db_setinfo` changes when its text fits: those of the name. -/
theorem holds_named (env : Env) (name : String) :
    (InfoWhere.named name).holds env = fun row => decide (row.name = name) := rfl

/-- The update of `db_setinfo` when its text fits `sql[512]`. -/
theorem db_exec_updateInfo_fit (env : Env) (c : Conn) (name value : String)
    (hfit : escapedLength value + escapedLength name ≤ 472) :
    db_exec env c (Stmt.updateInfo value name) =
      (1, { c with
        tables := { c.tables with info := setValue name value c.tables.info },
        changes := (c.tables.info.filter (fun row => row.name = name)).length }) := by
  simp only [db_exec, Stmt.step, readUpdateInfo_fit value name hfit, holds_named, setValue]

/-- When the texts fit, `db_setinfo` on a key that has a row updates the row, with either
value of `createifnotfound`. -/
theorem db_setinfo_present (env : Env) (c : Conn) (name value : String) (b : Bool)
    (row : InfoRow) (hfit : escapedLength value + escapedLength name ≤ 472)
    (hmem : row ∈ c.tables.info) (hk : row.name = name) :
    db_setinfo env c name value b =
      (1, { c with
        tables := { c.tables with info := setValue name value c.tables.info },
        changes := (c.tables.info.filter (fun row => row.name = name)).length }) := by
  have hpos := filter_name_pos_of_mem (fun row : InfoRow => row.name) name _ row hmem hk
  have hne : (c.tables.info.filter (fun row => row.name = name)).length ≠ 0 :=
    Nat.pos_iff_ne_zero.mp hpos
  simp [db_setinfo, db_exec_updateInfo_fit env c name value hfit, hne]

/-- The insert of `db_setinfo` when its text fits `sql[512]` and the name has no row. -/
theorem db_exec_insertInfo_fit (env : Env) (c : Conn) (name value : String)
    (hfit : escapedLength name + escapedLength value ≤ 464)
    (h : ∀ row ∈ c.tables.info, row.name ≠ name) :
    db_exec env c (Stmt.insertInfo name value) =
      (1, { c with
        tables := { c.tables with
          info := c.tables.info ++
            [{ id := nextRowid (c.tables.info.map (fun row => row.id)),
               name := name, value := value }] },
        changes := 1,
        lastRowid := nextRowid (c.tables.info.map (fun row => row.id)) }) := by
  have hany : c.tables.info.any (fun row => decide (row.name = name)) = false := by
    rw [List.any_eq_false]
    intro row hrow
    simpa using h row hrow
  simp [db_exec, Stmt.step, insertAccepted_insertInfo name value hfit, hany]

/-- When the texts fit, `db_setinfo` with `createifnotfound = 1` on a key without a row
inserts one. -/
theorem db_setinfo_absent_create (env : Env) (c : Conn) (name value : String)
    (hfit : escapedLength name + escapedLength value ≤ 464)
    (h : ∀ row ∈ c.tables.info, row.name ≠ name) :
    db_setinfo env c name value true =
      (1, { c with
        tables := { c.tables with
          info := c.tables.info ++
            [{ id := nextRowid (c.tables.info.map (fun row => row.id)),
               name := name, value := value }] },
        changes := 1,
        lastRowid := nextRowid (c.tables.info.map (fun row => row.id)) }) := by
  have hnil : c.tables.info.filter (fun row => decide (row.name = name)) = [] :=
    filter_name_eq_nil (fun row : InfoRow => row.name) name _ h
  have hupd := db_exec_updateInfo_fit env c name value (by omega)
  rw [setValue_of_absent name value _ h, hnil] at hupd
  unfold db_setinfo
  rw [hupd]
  simp only [List.length_nil, one_ne_zero, and_false, or_false, and_self, if_true, if_false]
  exact db_exec_insertInfo_fit env _ name value hfit h

/-- When the text fits, `db_setinfo` with `createifnotfound = 0` on a key without a row
returns 0 and leaves the tables as they are. -/
theorem db_setinfo_absent_nocreate (env : Env) (c : Conn) (name value : String)
    (hfit : escapedLength value + escapedLength name ≤ 472)
    (h : ∀ row ∈ c.tables.info, row.name ≠ name) :
    (db_setinfo env c name value false).1 = 0 ∧
      (db_setinfo env c name value false).2.tables = c.tables := by
  have hnil := filter_name_eq_nil (fun row : InfoRow => row.name) name _ h
  have hmap := setValue_of_absent name value _ h
  simp [db_setinfo, db_exec_updateInfo_fit env c name value hfit, hnil, hmap]

set_option maxRecDepth 100000 in
/-- C8, as stated, fails for a value of 64 bytes: `db_setinfo` stores it and returns 1,
and `db_getinfo` returns only its first 63 bytes, the capacity of `buffer[64]`. -/
theorem db_getinfo_truncates :
    (db_setinfo { now := 0, tz := 0 } emptyConn "vnstatversion" longValue true).1 = 1 ∧
      db_getinfo (db_setinfo { now := 0, tz := 0 } emptyConn "vnstatversion" longValue true).2
        "vnstatversion" ≠ longValue ∧
      db_getinfo (db_setinfo { now := 0, tz := 0 } emptyConn "vnstatversion" longValue true).2
        "vnstatversion" = String.mk (List.replicate 63 'v') := by
  decide

set_option maxRecDepth 100000 in
/-- The statements of `db_setinfo` are cut to `sql[512]`. On the store with the one row
`dbversion`: the key `dbversion'x` has no row, yet `db_setinfo("dbversion'x", cutValue, 0)`
returns 1 and changes the row of `dbversion`; `db_setinfo` of the 600-byte value
`longName` returns 0 with either flag, the cut text being no statement. -/
theorem db_setinfo_cut :
    (db_setinfo { now := 0, tz := 0 } emptyConn "dbversion" "1" true).2.tables.info
        = [{ id := 1, name := "dbversion", value := "1" }] ∧
      db_setinfo { now := 0, tz := 0 }
          (db_setinfo { now := 0, tz := 0 } emptyConn "dbversion" "1" true).2
          "dbversion'x" cutValue false
        = (1, { tables := { emptyTables with
                  info := [{ id := 1, name := "dbversion", value := cutValue }] },
                txn := none, changes := 1, lastRowid := 1 }) ∧
      db_setinfo { now := 0, tz := 0 } emptyConn "dbversion" longName true
        = (0, emptyConn) ∧
      db_setinfo { now := 0, tz := 0 } emptyConn "dbversion" longName false
        = (0, emptyConn) := by
  decide

/-- C8, amended. On a table `info` in which no two rows have the same name, and for a
name and a value whose forms in the statements (each `'` written twice) are together at
most 464 bytes long, so that every statement fits `sql[512]`: `db_setinfo(name, value, 1)`
returns 1 and leaves exactly one row for `name`, whether or not there was one, and
`db_getinfo(name)` then returns the first 63 bytes of `value`, so `value` itself when it is
at most 63 bytes long; `db_setinfo(name, value, 0)` on a name without a row returns 0 and
leaves the tables unchanged; `db_getinfo` of a name without a row returns the empty
string. -/
theorem db_setinfo_getinfo (env : Env) (c : Conn) (name value : String)
    (hu : (c.tables.info.map (fun row => row.name)).Nodup)
    (hfit : escapedLength name + escapedLength value ≤ 464) :
    (db_setinfo env c name value true).1 = 1 ∧
      ((db_setinfo env c name value true).2.tables.info.filter
        (fun row => row.name = name)).length = 1 ∧
      db_getinfo (db_setinfo env c name value true).2 name = strncpy_nt value 64 ∧
      (value.length ≤ 63 → db_getinfo (db_setinfo env c name value true).2 name = value) ∧
      ((∀ row ∈ c.tables.info, row.name ≠ name) →
        (db_setinfo env c name value false).1 = 0 ∧
          (db_setinfo env c name value false).2.tables = c.tables ∧
          db_getinfo c name = "") := by
  have hsel : selectValueName name = some name := selectValueName_fit name (by omega)
  have hupd : escapedLength value + escapedLength name ≤ 472 := by omega
  have key : (db_setinfo env c name value true).1 = 1 ∧
      ((db_setinfo env c name value true).2.tables.info.filter
        (fun row => row.name = name)).length = 1 ∧
      db_getinfo (db_setinfo env c name value true).2 name = strncpy_nt value 64 := by
    by_cases h : ∃ row ∈ c.tables.info, row.name = name
    · obtain ⟨row, hmem, hk⟩ := h
      rw [db_setinfo_present env c name value true row hupd hmem hk]
      refine ⟨rfl, ?_, ?_⟩
      · show ((setValue name value c.tables.info).filter _).length = 1
        rw [setValue_filter_length]
        have hle := filter_name_length_le_one (fun row : InfoRow => row.name) name _ hu
        have hpos := filter_name_pos_of_mem (fun row : InfoRow => row.name) name _ row hmem hk
        exact Nat.le_antisymm hle hpos
      · obtain ⟨found, hfound, _⟩ :=
          find_name_isSome (fun row : InfoRow => row.name) name _ row hmem hk
        unfold db_getinfo
        rw [hsel]
        show (match (setValue name value c.tables.info).find? _ with
          | some row => strncpy_nt row.value 64
          | none => "") = _
        rw [setValue_find, hfound]
        rfl
    · have habs : ∀ row ∈ c.tables.info, row.name ≠ name := by
        intro row hmem hk
        exact h ⟨row, hmem, hk⟩
      rw [db_setinfo_absent_create env c name value hfit habs]
      have hnil := filter_name_eq_nil (fun row : InfoRow => row.name) name _ habs
      have hnone := find_name_eq_none (fun row : InfoRow => row.name) name _ habs
      refine ⟨rfl, ?_, ?_⟩
      · simp [List.filter_append, hnil]
      · simp [db_getinfo, hsel, List.find?_append, hnone]
  refine ⟨key.1, key.2.1, key.2.2, ?_, ?_⟩
  · intro hlen
    rw [key.2.2, strncpy_nt_short value hlen]
  · intro habs
    have hnone := find_name_eq_none (fun row : InfoRow => row.name) name _ habs
    refine ⟨(db_setinfo_absent_nocreate env c name value hupd habs).1,
      (db_setinfo_absent_nocreate env c name value hupd habs).2, ?_⟩
    simp [db_getinfo, hsel, hnone]

/-- The hypotheses of `db_setinfo_getinfo` hold on a table with the row `dbversion` and
for the value `2`: setting it again leaves one row and reads back the new value. -/
theorem db_setinfo_getinfo_witness :
    ((db_setinfo { now := 0, tz := 0 } emptyConn "dbversion" "1" true).2.tables.info.map
        (fun row => row.name)).Nodup ∧
      escapedLength "dbversion" + escapedLength "2" ≤ 464 ∧
      db_getinfo (db_setinfo { now := 0, tz := 0 }
        (db_setinfo { now := 0, tz := 0 } emptyConn "dbversion" "1" true).2
        "dbversion" "2" true).2 "dbversion" = "2" :=
  ⟨by decide, by decide,
    (db_setinfo_getinfo { now := 0, tz := 0 }
      (db_setinfo { now := 0, tz := 0 } emptyConn "dbversion" "1" true).2
      "dbversion" "2" (by decide) (by decide)).2.2.2.1 (by decide)⟩

/-! ## The table `interface` -/

theorem maxId_ge (ids : List Int) (m : Int) (h : maxId ids = some m) :
    ∀ x ∈ ids, x ≤ m := by
  induction ids generalizing m with
  | nil => intro x hx; cases hx
  | cons y ys ih =>
      intro x hx
      unfold maxId at h
      cases hm : maxId ys with
      | none =>
          rw [hm] at h
          have hys : ys = [] := by
            cases ys with
            | nil => rfl
            | cons z zs =>
                unfold maxId at hm
                cases hz : maxId zs <;> rw [hz] at hm <;> cases hm
          subst hys
          simp at hx h
          omega
      | some m1 =>
          rw [hm] at h
          simp at h
          rcases List.mem_cons.mp hx with hxy | hxys
          · subst hxy; omega
          · have := ih m1 hm x hxys
            omega

theorem nextRowid_gt (ids : List Int) : ∀ x ∈ ids, x < nextRowid ids := by
  intro x hx
  unfold nextRowid
  cases hm : maxId ids with
  | none =>
      cases ids with
      | nil => cases hx
      | cons z zs =>
          unfold maxId at hm
          cases hz : maxId zs <;> rw [hz] at hm <;> cases hm
  | some m =>
      have := maxId_ge ids m hm x hx
      show x < m + 1
      omega

theorem nextRowid_pos (ids : List Int) (h : ∀ x ∈ ids, 0 < x) : 0 < nextRowid ids := by
  cases ids with
  | nil => decide
  | cons z zs =>
      have h1 := nextRowid_gt (z :: zs) z (List.mem_cons_self z zs)
      have h2 := h z (List.mem_cons_self z zs)
      omega

theorem find_of_nodup {α β : Type} [DecidableEq β] (key : α → β) (rows : List α) (row : α)
    (hmem : row ∈ rows) (hnd : (rows.map key).Nodup) :
    rows.find? (fun other => key other = key row) = some row := by
  induction rows with
  | nil => cases hmem
  | cons first rest ih =>
      rw [List.map_cons, List.nodup_cons] at hnd
      rcases List.mem_cons.mp hmem with heq | hrest
      · subst heq
        simp
      · have hne : key first ≠ key row := by
          intro heq
          exact hnd.1 (by rw [heq]; exact List.mem_map_of_mem key hrest)
        simpa [hne] using ih hrest hnd.2

theorem selectInterfaceId_found (t : Tables) (row : IfaceRow) (hmem : row ∈ t.interface)
    (hnd : (t.interface.map (fun row => row.name)).Nodup) :
    selectInterfaceId t row.name = some row.id := by
  unfold selectInterfaceId
  rw [find_of_nodup (fun row : IfaceRow => row.name) t.interface row hmem hnd]
  rfl

theorem selectInterfaceId_absent (t : Tables) (name : String)
    (habs : ∀ row ∈ t.interface, row.name ≠ name) :
    selectInterfaceId t name = none := by
  unfold selectInterfaceId
  rw [find_name_eq_none (fun row : IfaceRow => row.name) name _ habs]
  rfl

/-- With `createifnotfound = 0`, `db_getinterfaceid` is the lookup and changes nothing,
for every name. -/
theorem db_getinterfaceid_nocreate (env : Env) (c : Conn) (name : String) :
    db_getinterfaceid env c name false = (lookupInterfaceId c.tables name, c) := by
  simp [db_getinterfaceid]

/-- The statement of `db_addinterface`, when SQLite accepts it, appends the row
`freshInterface` to a table that had no row of the name. -/
theorem addInterface_step (env : Env) (c c1 : Conn) (name : String)
    (hstep : Stmt.step env c (Stmt.addInterface name) = some c1) :
    (∀ row ∈ c.tables.interface, row.name ≠ name) ∧
      c1 = { c with
        tables := { c.tables with
          interface := c.tables.interface ++
            [freshInterface env name (nextRowid (c.tables.interface.map (fun row => row.id)))] },
        changes := 1,
        lastRowid := nextRowid (c.tables.interface.map (fun row => row.id)) } := by
  simp only [Stmt.step] at hstep
  split at hstep
  · split at hstep
    · cases hstep
    · split at hstep
      · cases hstep
      · rename_i hany
        cases hstep
        refine ⟨?_, rfl⟩
        intro row hrow hk
        apply hany
        rw [List.any_eq_true]
        exact ⟨row, hrow, by simpa using hk⟩
  · cases hstep

/-- A registered name whose select fits `sql[512]`: `db_getinterfaceid` returns the id of
its row and changes nothing, with either value of `createifnotfound`. -/
theorem db_getinterfaceid_found (env : Env) (c : Conn) (b : Bool) (row : IfaceRow)
    (hwf : IfaceWF c.tables.interface) (hmem : row ∈ c.tables.interface)
    (hfit : escapedLength row.name ≤ 473) :
    db_getinterfaceid env c row.name b = (row.id, c) := by
  have hpos := hwf.1 row hmem
  have hne : row.id ≠ 0 := by omega
  simp [db_getinterfaceid, lookupInterfaceId, selectIdName_fit row.name hfit,
    selectInterfaceId_found c.tables row hmem hwf.2.2, hne]

/-- An unregistered name whose select fits `sql[512]`, and `createifnotfound = 0`: the
result is 0, nothing changes. -/
theorem db_getinterfaceid_absent (env : Env) (c : Conn) (name : String)
    (hfit : escapedLength name ≤ 473)
    (habs : ∀ row ∈ c.tables.interface, row.name ≠ name) :
    db_getinterfaceid env c name false = (0, c) := by
  simp [db_getinterfaceid, lookupInterfaceId, selectIdName_fit name hfit,
    selectInterfaceId_absent c.tables name habs]

/-- An unregistered name whose select fits `sql[512]`, `createifnotfound = 1` and a clock
SQLite can write as a date: one row is appended and its rowid returned. -/
theorem db_getinterfaceid_create (env : Env) (c : Conn) (name : String)
    (hfit : escapedLength name ≤ 473) (hclock : sqlDate (localtime env env.now) ≠ none)
    (habs : ∀ row ∈ c.tables.interface, row.name ≠ name) :
    db_getinterfaceid env c name true =
      (nextRowid (c.tables.interface.map (fun row => row.id)),
        { c with
          tables := { c.tables with
            interface := c.tables.interface ++
              [freshInterface env name
                (nextRowid (c.tables.interface.map (fun row => row.id)))] },
          changes := 1,
          lastRowid := nextRowid (c.tables.interface.map (fun row => row.id)) }) := by
  have hany : c.tables.interface.any (fun row => decide (row.name = name)) = false := by
    rw [List.any_eq_false]
    intro row hrow
    simpa using habs row hrow
  obtain ⟨u, hu⟩ : ∃ u, sqlDate (localtime env env.now) = some u := by
    cases h : sqlDate (localtime env env.now) with
    | none => exact absurd h hclock
    | some u => exact ⟨u, rfl⟩
  have hstep : Stmt.step env c (Stmt.addInterface name) =
      some { c with
          tables := { c.tables with
            interface := c.tables.interface ++
              [freshInterface env name
                (nextRowid (c.tables.interface.map (fun row => row.id)))] },
          changes := 1,
          lastRowid := nextRowid (c.tables.interface.map (fun row => row.id)) } := by
    simp [Stmt.step, insertAccepted_addInterface name (by omega), hu, hany]
  simp [db_getinterfaceid, lookupInterfaceId, selectIdName_fit name hfit,
    selectInterfaceId_absent c.tables name habs, db_addinterface, db_exec, hstep]

/-- Appending the row `db_addinterface` makes for an unregistered name keeps `IfaceWF`. -/
theorem IfaceWF_append_fresh (env : Env) (rows : List IfaceRow) (name : String)
    (hwf : IfaceWF rows) (habs : ∀ row ∈ rows, row.name ≠ name) :
    IfaceWF (rows ++ [freshInterface env name (nextRowid (rows.map (fun row => row.id)))]) := by
  obtain ⟨hpos, hid, hname⟩ := hwf
  have hnext := nextRowid_pos (rows.map (fun row => row.id)) (by
    intro x hx
    obtain ⟨row, hrow, rfl⟩ := List.mem_map.mp hx
    exact hpos row hrow)
  refine ⟨?_, ?_, ?_⟩
  · intro row hrow
    rcases List.mem_append.mp hrow with h | h
    · exact hpos row h
    · simp at h
      subst h
      exact hnext
  · rw [List.map_append, List.nodup_append]
    refine ⟨hid, by simp, ?_⟩
    intro x hx hx2
    simp [freshInterface] at hx2
    subst hx2
    have := nextRowid_gt _ _ hx
    omega
  · rw [List.map_append, List.nodup_append]
    refine ⟨hname, by simp, ?_⟩
    intro x hx hx2
    simp [freshInterface] at hx2
    subst hx2
    obtain ⟨row, hrow, hrn⟩ := List.mem_map.mp hx
    exact habs row hrow hrn

set_option maxRecDepth 100000 in
/-- C10, as stated, fails for a name that does not fit `sql[512]`. For the 600-byte name
`longName` on a new database, `db_getinterfaceid(longName, 1)` returns 1 and adds the row
(the insert has `sql[1024]`); then `db_getinterfaceid(longName, 0)` returns 0 although the
row has that name, and a second `db_getinterfaceid(longName, 1)` returns 0, not 1: the
select cut to 511 bytes is no statement, and the insert fails on the unique name. On the
table with the one row `fullName`, `db_getinterfaceid(cutName, 0)` returns its id 1
although no row has the name `cutName`. -/
theorem db_getinterfaceid_long_name :
    db_getinterfaceid { now := 0, tz := 0 } emptyConn longName true =
        (1, { tables := { emptyTables with
                interface := [freshInterface { now := 0, tz := 0 } longName 1] },
              txn := none, changes := 1, lastRowid := 1 }) ∧
      (db_getinterfaceid { now := 0, tz := 0 }
        (db_getinterfaceid { now := 0, tz := 0 } emptyConn longName true).2
        longName false).1 = 0 ∧
      (db_getinterfaceid { now := 0, tz := 0 }
        (db_getinterfaceid { now := 0, tz := 0 } emptyConn longName true).2
        longName true).1 = 0 ∧
      (db_getinterfaceid { now := 0, tz := 0 } emptyConn fullName true).2.tables.interface
        = [freshInterface { now := 0, tz := 0 } fullName 1] ∧
      cutName ≠ fullName ∧
      (db_getinterfaceid { now := 0, tz := 0 }
        (db_getinterfaceid { now := 0, tz := 0 } emptyConn fullName true).2
        cutName false).1 = 1 := by
  decide

/-- C10, amended. On a table `interface` with positive, distinct ids and distinct names,
for a name whose form in the statement (each `'` written twice) is at most 473 bytes
long, so that the select fits `sql[512]`, and a clock SQLite can write as a date:
`db_getinterfaceid(name, 0)` leaves the connection as it was and returns 0 exactly when no
row has the name; `db_getinterfaceid(name, 1)` returns the id of the row of a registered
name and changes nothing, and for an unregistered name appends exactly one row (active 1,
counters and totals 0) and returns its id, which is not 0; a second call returns the same
id and the same connection, so the number of interfaces grows by at most one. -/
theorem db_getinterfaceid_spec (env : Env) (c : Conn) (name : String)
    (hwf : IfaceWF c.tables.interface) (hfit : escapedLength name ≤ 473)
    (hclock : sqlDate (localtime env env.now) ≠ none) :
    (db_getinterfaceid env c name false).2 = c ∧
      ((db_getinterfaceid env c name false).1 = 0 ↔
        ∀ row ∈ c.tables.interface, row.name ≠ name) ∧
      (∀ row ∈ c.tables.interface, row.name = name →
        db_getinterfaceid env c name true = (row.id, c)) ∧
      ((∀ row ∈ c.tables.interface, row.name ≠ name) →
        ∃ row : IfaceRow,
          row.name = name ∧ row.active = 1 ∧
          row.rxcounter = Cell.int 0 ∧ row.txcounter = Cell.int 0 ∧
          row.rxtotal = Cell.int 0 ∧ row.txtotal = Cell.int 0 ∧
          (db_getinterfaceid env c name true).1 = row.id ∧ row.id ≠ 0 ∧
          (db_getinterfaceid env c name true).2.tables =
            { c.tables with interface := c.tables.interface ++ [row] }) ∧
      (∀ env2 : Env,
        db_getinterfaceid env2 (db_getinterfaceid env c name true).2 name true =
          db_getinterfaceid env c name true) ∧
      db_getinterfacecount (db_getinterfaceid env c name true).2
        ≤ db_getinterfacecount c + 1 := by
  by_cases h : ∃ row ∈ c.tables.interface, row.name = name
  · obtain ⟨row, hmem, hk⟩ := h
    subst hk
    have hpos := hwf.1 row hmem
    have hfound := fun b => db_getinterfaceid_found env c b row hwf hmem hfit
    refine ⟨by rw [hfound], ?_, ?_, ?_, ?_, ?_⟩
    · rw [hfound]
      constructor
      · intro h0
        simp at h0
        omega
      · intro habs
        exact absurd rfl (habs row hmem)
    · intro other hother hk
      have hfit2 : escapedLength other.name ≤ 473 := by rw [hk]; exact hfit
      rw [← hk]
      exact db_getinterfaceid_found env c true other hwf hother hfit2
    · intro habs
      exact absurd rfl (habs row hmem)
    · intro env2
      rw [hfound]
      exact db_getinterfaceid_found env2 c true row hwf hmem hfit
    · rw [hfound]
      show db_getinterfacecount c ≤ db_getinterfacecount c + 1
      omega
  · have habs : ∀ row ∈ c.tables.interface, row.name ≠ name := by
      intro row hmem hk
      exact h ⟨row, hmem, hk⟩
    have hnext := nextRowid_pos (c.tables.interface.map (fun row => row.id)) (by
      intro x hx
      obtain ⟨row, hrow, rfl⟩ := List.mem_map.mp hx
      exact hwf.1 row hrow)
    refine ⟨by rw [db_getinterfaceid_absent env c name hfit habs], ?_, ?_, ?_, ?_, ?_⟩
    · rw [db_getinterfaceid_absent env c name hfit habs]
      simpa using habs
    · intro row hmem hk
      exact absurd hk (habs row hmem)
    · intro _
      rw [db_getinterfaceid_create env c name hfit hclock habs]
      refine ⟨freshInterface env name (nextRowid (c.tables.interface.map (fun row => row.id))),
        rfl, rfl, rfl, rfl, rfl, rfl, ?_, ?_, ?_⟩
      · rfl
      · show nextRowid _ ≠ 0
        omega
      · rfl
    · intro env2
      have hwf2 : IfaceWF (db_getinterfaceid env c name true).2.tables.interface := by
        rw [db_getinterfaceid_create env c name hfit hclock habs]
        exact IfaceWF_append_fresh env c.tables.interface name hwf habs
      have hmem2 :
          freshInterface env name (nextRowid (c.tables.interface.map (fun row => row.id)))
            ∈ (db_getinterfaceid env c name true).2.tables.interface := by
        rw [db_getinterfaceid_create env c name hfit hclock habs]
        show _ ∈ c.tables.interface ++ [_]
        simp
      have hagain := db_getinterfaceid_found env2 _ true _ hwf2 hmem2 hfit
      have hname : (freshInterface env name
          (nextRowid (c.tables.interface.map (fun row => row.id)))).name = name := rfl
      rw [hname] at hagain
      rw [hagain, db_getinterfaceid_create env c name hfit hclock habs]
      rfl
    · rw [db_getinterfaceid_create env c name hfit hclock habs]
      simp [db_getinterfacecount]

/-- The hypotheses of `db_getinterfaceid_spec` hold on the table with the one row `eth0`,
for the name `eth0` and the clock 2024-03-15 14:37:00: looking up `eth0` changes nothing. -/
theorem db_getinterfaceid_spec_witness :
    IfaceWF eth0Conn.tables.interface ∧ escapedLength "eth0" ≤ 473 ∧
      sqlDate (localtime { now := 1710513420, tz := 0 } 1710513420) ≠ none ∧
      (db_getinterfaceid { now := 1710513420, tz := 0 } eth0Conn "eth0" false).2 = eth0Conn :=
  ⟨⟨by decide, by decide, by decide⟩, by decide, by decide,
    (db_getinterfaceid_spec { now := 1710513420, tz := 0 } eth0Conn "eth0"
      ⟨by decide, by decide, by decide⟩ (by decide) (by decide)).1⟩

/-! ## Raw counters -/

theorem storeCounters_find_id (rx tx : Nat) (ifaceid : Int) (rows : List IfaceRow)
    (row : IfaceRow) (hfind : rows.find? (fun other => other.id = ifaceid) = some row) :
    (storeCounters rx tx ifaceid rows).find? (fun other => other.id = ifaceid)
      = some { row with rxcounter := Cell.ofLiteral rx, txcounter := Cell.ofLiteral tx } := by
  induction rows with
  | nil => simp at hfind
  | cons first rest ih =>
      by_cases h : first.id = ifaceid
      · simp [h] at hfind
        subst hfind
        simp [storeCounters, h]
      · simp [h] at hfind
        have := ih hfind
        simpa [storeCounters, h] using this

theorem storeCounters_find_name (rx tx : Nat) (ifaceid : Int) (name : String)
    (rows : List IfaceRow) (row : IfaceRow)
    (hfind : rows.find? (fun other => other.name = name) = some row) :
    ∃ found, (storeCounters rx tx ifaceid rows).find? (fun other => other.name = name)
      = some found ∧ found.id = row.id := by
  induction rows with
  | nil => simp at hfind
  | cons first rest ih =>
      by_cases h : first.name = name
      · simp [h] at hfind
        subst hfind
        by_cases hid : first.id = ifaceid
        · exact ⟨{ first with rxcounter := Cell.ofLiteral rx, txcounter := Cell.ofLiteral tx },
            by simp [storeCounters, h, hid], rfl⟩
        · exact ⟨first, by simp [storeCounters, h, hid], rfl⟩
      · simp [h] at hfind
        obtain ⟨found, hfound, hid⟩ := ih hfind
        refine ⟨found, ?_, hid⟩
        by_cases hid2 : first.id = ifaceid
        · simpa [storeCounters, h, hid2] using hfound
        · simpa [storeCounters, h, hid2] using hfound

theorem toUint64_column_ofLiteral (u : Nat) (h : u < 2 ^ 63) :
    toUint64 (Cell.ofLiteral u).column_int64 = u := by
  have h2 : (u : Int) < 2 ^ 64 := by
    have : (u : Int) < 2 ^ 63 := by exact_mod_cast h
    omega
  simp only [Cell.ofLiteral, h, if_true, Cell.column_int64, toUint64]
  rw [Int.emod_eq_of_lt (by omega) h2]
  simp

/-- C9, as stated, fails at `rxcounter = 2^63`, an unsigned 64-bit value: on the
interface `eth0`, `db_setcounters` returns 1 and `db_getcounters` then returns 1 with
`2^63 - 1` for it. -/
theorem db_getcounters_not_roundtrip :
    2 ^ 63 < 2 ^ 64 ∧
      (db_setcounters { now := 0, tz := 0 } eth0Conn "eth0" (2 ^ 63) 5).1 = 1 ∧
      db_getcounters { now := 0, tz := 0 }
        (db_setcounters { now := 0, tz := 0 } eth0Conn "eth0" (2 ^ 63) 5).2 "eth0"
        ≠ (1, 2 ^ 63, 5) := by
  decide

set_option maxRecDepth 100000 in
/-- The select of `db_setcounters` and `db_getcounters` is cut to `sql[512]`. On the
table with the one row `fullName`, the name `cutName` has no row, yet
`db_setcounters(cutName, 7, 9)` returns 1 and stores the counters in the row of
`fullName`, and `db_getcounters(cutName)` returns 1; on the table with the one row
`longName`, a registered name, `db_setcounters(longName, 7, 9)` returns 0. -/
theorem db_setcounters_cut :
    db_setcounters { now := 0, tz := 0 }
        (db_getinterfaceid { now := 0, tz := 0 } emptyConn fullName true).2 cutName 7 9
      = (1, { tables := { emptyTables with
                interface := [{ freshInterface { now := 0, tz := 0 } fullName 1 with
                  rxcounter := Cell.int 7, txcounter := Cell.int 9 }] },
              txn := none, changes := 1, lastRowid := 1 }) ∧
      db_getcounters { now := 0, tz := 0 }
        (db_getinterfaceid { now := 0, tz := 0 } emptyConn fullName true).2 cutName
        = (1, 0, 0) ∧
      (db_getinterfaceid { now := 0, tz := 0 } emptyConn longName true).2.tables.interface
        = [freshInterface { now := 0, tz := 0 } longName 1] ∧
      (db_setcounters { now := 0, tz := 0 }
        (db_getinterfaceid { now := 0, tz := 0 } emptyConn longName true).2 longName 7 9).1
        = 0 := by
  decide

/-- C9, amended. On a table `interface` with positive, distinct ids and distinct names,
and for a name whose form in the statement (each `'` written twice) is at most 473 bytes
long, so that the select fits `sql[512]`: for a registered name and counters below `2^63`,
`db_setcounters` returns 1 and `db_getcounters` then returns 1 and exactly the two
counters; for an unregistered name both return 0, `db_getcounters` gives 0 for both
outputs, and the connection, so every interface row, stays as it was. -/
theorem db_setcounters_getcounters (env : Env) (c : Conn) (name : String)
    (rxcounter txcounter : Nat) (hwf : IfaceWF c.tables.interface)
    (hfit : escapedLength name ≤ 473) :
    ((∃ row ∈ c.tables.interface, row.name = name) →
      rxcounter < 2 ^ 63 → txcounter < 2 ^ 63 →
        (db_setcounters env c name rxcounter txcounter).1 = 1 ∧
          db_getcounters env (db_setcounters env c name rxcounter txcounter).2 name
            = (1, rxcounter, txcounter)) ∧
      ((∀ row ∈ c.tables.interface, row.name ≠ name) →
        db_setcounters env c name rxcounter txcounter = (0, c) ∧
          db_getcounters env c name = (0, 0, 0)) := by
  constructor
  · rintro ⟨row, hmem, rfl⟩ hrx htx
    have hne : row.id ≠ 0 := by have := hwf.1 row hmem; omega
    have hset : db_setcounters env c row.name rxcounter txcounter =
        (1, { c with
          tables := { c.tables with
            interface := storeCounters rxcounter txcounter row.id c.tables.interface },
          changes := (c.tables.interface.filter (fun other => other.id = row.id)).length }) := by
      simp [db_setcounters, db_getinterfaceid_found env c false row hwf hmem hfit, hne, db_exec,
        Stmt.step]
    rw [hset]
    refine ⟨rfl, ?_⟩
    have hbyname := find_of_nodup (fun row : IfaceRow => row.name) _ row hmem hwf.2.2
    have hbyid := find_of_nodup (fun row : IfaceRow => row.id) _ row hmem hwf.2.1
    obtain ⟨found, hfound, hfid⟩ :=
      storeCounters_find_name rxcounter txcounter row.id row.name _ row hbyname
    have hstored := storeCounters_find_id rxcounter txcounter row.id _ row hbyid
    have hfne : found.id ≠ 0 := by rw [hfid]; exact hne
    simp only [db_getcounters, db_getinterfaceid_nocreate, lookupInterfaceId,
      selectIdName_fit row.name hfit, selectInterfaceId, hfound, Option.map_some']
    simp [hfne, hfid, hstored, hne, toUint64_column_ofLiteral _ hrx,
      toUint64_column_ofLiteral _ htx]
  · intro habs
    simp [db_setcounters, db_getcounters, db_getinterfaceid_absent env c name hfit habs]

/-- The hypotheses of `db_setcounters_getcounters` hold on the table with the one row
`eth0` and for the name `eth0`: the counters 7 and 9 are read back. -/
theorem db_setcounters_getcounters_witness :
    IfaceWF eth0Conn.tables.interface ∧ escapedLength "eth0" ≤ 473 ∧
      db_getcounters { now := 0, tz := 0 }
        (db_setcounters { now := 0, tz := 0 } eth0Conn "eth0" 7 9).2 "eth0" = (1, 7, 9) :=
  ⟨⟨by decide, by decide, by decide⟩, by decide,
    ((db_setcounters_getcounters { now := 0, tz := 0 } eth0Conn "eth0" 7 9
      ⟨by decide, by decide, by decide⟩ (by decide)).1
        ⟨freshInterface { now := 1710000000, tz := 0 } "eth0" 1, by decide, by decide⟩
        (by decide) (by decide)).2⟩

/-! ## Retention -/

/-- The connection after a `db_removeoldentries` that found no transaction open. -/
theorem db_removeoldentries_eq (env : Env) (c : Conn) (htxn : c.txn = none) :
    db_removeoldentries env c =
      (1, { c with
        tables :=
          { info := c.tables.info, interface := c.tables.interface,
            fiveminute := c.tables.fiveminute.filter
              (fun row => ¬ row.date < horizon env Res.fiveminute),
            hour := c.tables.hour.filter (fun row => ¬ row.date < horizon env Res.hour),
            day := c.tables.day.filter (fun row => ¬ row.date < horizon env Res.day),
            month := c.tables.month.filter (fun row => ¬ row.date < horizon env Res.month),
            year := c.tables.year.filter (fun row => ¬ row.date < horizon env Res.year) },
        txn := none,
        changes := (c.tables.year.filter
          (fun row => row.date < horizon env Res.year)).length }) := by
  simp [db_removeoldentries, db_begintransaction, htxn, Res.all, db_exec, Stmt.step,
    Tables.setSeries, Tables.series, db_committransaction]

/-- Inside an open transaction `db_removeoldentries` returns 0 and changes nothing. -/
theorem db_removeoldentries_in_txn (env : Env) (c : Conn) (saved : Tables)
    (htxn : c.txn = some saved) : db_removeoldentries env c = (0, c) := by
  simp [db_removeoldentries, db_begintransaction, htxn]

/-- C7, as stated, fails for the series `day`: at 2026-10-31 12:00:00 the row of
2026-10-01 is older than the present moment less 30 days (2026-10-01 12:00:00), and a
successful `db_removeoldentries` keeps it, because the `delete` compares with the date
`date('now', '-30 days', 'localtime')`, 2026-10-01. In the same way the month row
2025-10-01 is kept at 2026-10-01 12:00:00 and the year row 2016-01-01 at
2026-01-01 12:00:00. -/
theorem db_removeoldentries_keeps_day :
    (db_removeoldentries octoberNoon dayConn).1 = 1 ∧
      octoberFirst.date < statedHorizon octoberNoon Res.day ∧
      (db_removeoldentries octoberNoon dayConn).2.tables.series Res.day = [octoberFirst] ∧
      (db_removeoldentries octoberNoon dayConn).2.tables.series Res.day ≠
        (dayConn.tables.series Res.day).filter
          (fun row => ¬ row.date < statedHorizon octoberNoon Res.day) ∧
      (db_removeoldentries { now := 1790856000, tz := 0 } monthConn).2.tables.series Res.month ≠
        (monthConn.tables.series Res.month).filter
          (fun row => ¬ row.date < statedHorizon { now := 1790856000, tz := 0 } Res.month) ∧
      (db_removeoldentries { now := 1767268800, tz := 0 } yearConn).2.tables.series Res.year ≠
        (yearConn.tables.series Res.year).filter
          (fun row => ¬ row.date < statedHorizon { now := 1767268800, tz := 0 } Res.year) := by
  decide

/-- C7, amended. After a call of `db_removeoldentries` that returns 1, each series holds
exactly the rows it held before whose date is not below the right-hand side of its
`delete`: the local date and time of now less 48 hours (`fiveminute`) and less 7 days
(`hour`), and the local calendar date of now less 30 days (`day`), less 12 months
(`month`) and less 10 years (`year`); the rows that stay are unchanged, as are the tables
`interface` and `info`; a second call at the same time returns 1 and changes no table. -/
theorem db_removeoldentries_spec (env : Env) (c : Conn)
    (hok : (db_removeoldentries env c).1 = 1) :
    (∀ r : Res,
        (db_removeoldentries env c).2.tables.series r =
          (c.tables.series r).filter (fun row => ¬ row.date < horizon env r)) ∧
      (db_removeoldentries env c).2.tables.interface = c.tables.interface ∧
      (db_removeoldentries env c).2.tables.info = c.tables.info ∧
      (db_removeoldentries env (db_removeoldentries env c).2).1 = 1 ∧
      (db_removeoldentries env (db_removeoldentries env c).2).2.tables =
        (db_removeoldentries env c).2.tables := by
  cases htxn : c.txn with
  | some saved =>
      rw [db_removeoldentries_in_txn env c saved htxn] at hok
      cases hok
  | none =>
      rw [db_removeoldentries_eq env c htxn]
      refine ⟨?_, rfl, rfl, ?_, ?_⟩
      · intro r
        cases r <;> rfl
      · rw [db_removeoldentries_eq env _ rfl]
      · rw [db_removeoldentries_eq env _ rfl]
        simp [List.filter_filter]

/-- The hypothesis of `db_removeoldentries_spec` holds at 2026-10-31 12:00:00 on the
connection with one day row: the call returns 1 and the interface table stays. -/
theorem db_removeoldentries_spec_witness :
    (db_removeoldentries octoberNoon dayConn).1 = 1 ∧
      (db_removeoldentries octoberNoon dayConn).2.tables.interface
        = dayConn.tables.interface :=
  ⟨by decide, (db_removeoldentries_spec octoberNoon dayConn (by decide)).2.1⟩

/-! ## Lifetime totals -/

theorem setSeries_interface (t : Tables) (r : Res) (rows : List BucketRow) :
    (t.setSeries r rows).interface = t.interface := by
  cases r <;> rfl

theorem setSeries_info (t : Tables) (r : Res) (rows : List BucketRow) :
    (t.setSeries r rows).info = t.info := by
  cases r <;> rfl

/-- A bucket insert touches neither `interface`, `info` nor the transaction. -/
theorem db_exec_insertBucket_frame (env : Env) (c : Conn) (r : Res) (ifaceid : Int)
    (date : DateArg) :
    (db_exec env c (Stmt.insertBucket r ifaceid date)).2.tables.interface
        = c.tables.interface ∧
      (db_exec env c (Stmt.insertBucket r ifaceid date)).2.tables.info = c.tables.info ∧
      (db_exec env c (Stmt.insertBucket r ifaceid date)).2.txn = c.txn := by
  unfold db_exec
  cases hstep : Stmt.step env c (Stmt.insertBucket r ifaceid date) with
  | none => exact ⟨rfl, rfl, rfl⟩
  | some c1 =>
      simp only [Stmt.step] at hstep
      split at hstep
      · split at hstep
        · cases hstep
        · cases hstep; exact ⟨rfl, rfl, rfl⟩
        · split at hstep
          · cases hstep; exact ⟨rfl, rfl, rfl⟩
          · cases hstep
            exact ⟨setSeries_interface _ _ _, setSeries_info _ _ _, rfl⟩
      · cases hstep

/-- A bucket update touches neither `interface`, `info` nor the transaction. -/
theorem db_exec_updateBucket_frame (env : Env) (c : Conn) (r : Res) (rx tx : Nat)
    (ifaceid : Int) (date : DateArg) :
    (db_exec env c (Stmt.updateBucket r rx tx ifaceid date)).2.tables.interface
        = c.tables.interface ∧
      (db_exec env c (Stmt.updateBucket r rx tx ifaceid date)).2.tables.info
        = c.tables.info ∧
      (db_exec env c (Stmt.updateBucket r rx tx ifaceid date)).2.txn = c.txn := by
  unfold db_exec
  cases hstep : Stmt.step env c (Stmt.updateBucket r rx tx ifaceid date) with
  | none => exact ⟨rfl, rfl, rfl⟩
  | some c1 =>
      simp only [Stmt.step] at hstep
      split at hstep
      · split at hstep
        · cases hstep
        · cases hstep; exact ⟨rfl, rfl, rfl⟩
        · cases hstep
          exact ⟨setSeries_interface _ _ _, setSeries_info _ _ _, rfl⟩
      · cases hstep

/-- One round of the bucket loop touches neither `interface`, `info` nor the
transaction. -/
theorem addtrafficBucket_frame (env : Env) (rx tx : Nat) (ifaceid : Int) (nowdate : NowDate)
    (c : Conn) (r : Res) :
    (addtrafficBucket env rx tx ifaceid nowdate c r).tables.interface = c.tables.interface ∧
      (addtrafficBucket env rx tx ifaceid nowdate c r).tables.info = c.tables.info ∧
      (addtrafficBucket env rx tx ifaceid nowdate c r).txn = c.txn := by
  unfold addtrafficBucket
  have h1 := db_exec_insertBucket_frame env c r ifaceid (DateArg.template r)
  have h2 := db_exec_updateBucket_frame env
    (db_exec env c (Stmt.insertBucket r ifaceid (DateArg.template r))).2 r rx tx ifaceid
    (DateArg.formatted r nowdate)
  exact ⟨h2.1.trans h1.1, h2.2.1.trans h1.2.1, h2.2.2.trans h1.2.2⟩

/-- The bucket loop touches neither `interface`, `info` nor the transaction. -/
theorem bucketLoop_frame (env : Env) (rx tx : Nat) (ifaceid : Int) (nowdate : NowDate)
    (rs : List Res) (c : Conn) :
    (rs.foldl (addtrafficBucket env rx tx ifaceid nowdate) c).tables.interface
        = c.tables.interface ∧
      (rs.foldl (addtrafficBucket env rx tx ifaceid nowdate) c).tables.info
        = c.tables.info ∧
      (rs.foldl (addtrafficBucket env rx tx ifaceid nowdate) c).txn = c.txn := by
  induction rs generalizing c with
  | nil => exact ⟨rfl, rfl, rfl⟩
  | cons r rs ih =>
      have h1 := addtrafficBucket_frame env rx tx ifaceid nowdate c r
      have h2 := ih (addtrafficBucket env rx tx ifaceid nowdate c r)
      exact ⟨h2.1.trans h1.1, h2.2.1.trans h1.2.1, h2.2.2.trans h1.2.2⟩

/-- The total update with a date SQLite can form: it is accepted and adds the deltas to
the row of the id. -/
theorem db_exec_updateTotals_dated (env : Env) (c : Conn) (rx tx : Nat) (nowdate : NowDate)
    (ifaceid updated : Int) (hdate : datetimeLocal env nowdate = some updated) :
    db_exec env c (Stmt.updateTotals rx tx nowdate ifaceid) =
      (1, { c with
        tables := { c.tables with
          interface := addTotals rx tx updated ifaceid c.tables.interface },
        changes := (c.tables.interface.filter (fun row => row.id = ifaceid)).length }) := by
  simp [db_exec, Stmt.step, hdate]

/-- The total update touches neither the transaction, `info` nor any series, and leaves
table `interface` either as it was or with the deltas added to the row of the id. -/
theorem db_exec_updateTotals_frame (env : Env) (c : Conn) (rx tx : Nat) (nowdate : NowDate)
    (ifaceid : Int) :
    (db_exec env c (Stmt.updateTotals rx tx nowdate ifaceid)).2.txn = c.txn ∧
      (db_exec env c (Stmt.updateTotals rx tx nowdate ifaceid)).2.tables.info
        = c.tables.info ∧
      (∀ r : Res, (db_exec env c (Stmt.updateTotals rx tx nowdate ifaceid)).2.tables.series r
        = c.tables.series r) ∧
      ((db_exec env c (Stmt.updateTotals rx tx nowdate ifaceid)).2.tables.interface
          = c.tables.interface ∨
        ∃ updated : Int,
          (db_exec env c (Stmt.updateTotals rx tx nowdate ifaceid)).2.tables.interface
            = addTotals rx tx updated ifaceid c.tables.interface) := by
  cases hdate : datetimeLocal env nowdate with
  | some updated =>
      rw [db_exec_updateTotals_dated env c rx tx nowdate ifaceid updated hdate]
      exact ⟨rfl, rfl, fun r => by cases r <;> rfl, Or.inr ⟨updated, rfl⟩⟩
  | none =>
      by_cases hany : c.tables.interface.any (fun row => decide (row.id = ifaceid)) = true
      · have h : db_exec env c (Stmt.updateTotals rx tx nowdate ifaceid) = (0, c) := by
          simp only [db_exec, Stmt.step, hdate, hany, if_true]
        rw [h]
        exact ⟨rfl, rfl, fun _ => rfl, Or.inl rfl⟩
      · have h : db_exec env c (Stmt.updateTotals rx tx nowdate ifaceid)
            = (1, { c with changes := 0 }) := by
          simp only [db_exec, Stmt.step, hdate, hany]
          rfl
        rw [h]
        exact ⟨rfl, rfl, fun _ => rfl, Or.inl rfl⟩

/-- The part of `db_addtraffic_dated` from `BEGIN` to `COMMIT`, on a connection with no
transaction open: it returns 1, closes the transaction, and the table `interface` is the
one the total update leaves. -/
theorem addtraffic_transaction (env : Env) (c1 : Conn) (rx tx : Nat) (ifaceid : Int)
    (nowdate : NowDate) (htxn : c1.txn = none) :
    (db_committransaction (Res.all.foldl (addtrafficBucket env rx tx ifaceid nowdate)
        (db_exec env (db_begintransaction c1).2
          (Stmt.updateTotals rx tx nowdate ifaceid)).2)).1 = 1 ∧
      (db_committransaction (Res.all.foldl (addtrafficBucket env rx tx ifaceid nowdate)
        (db_exec env (db_begintransaction c1).2
          (Stmt.updateTotals rx tx nowdate ifaceid)).2)).2.tables.interface
        = (db_exec env (db_begintransaction c1).2
            (Stmt.updateTotals rx tx nowdate ifaceid)).2.tables.interface := by
  have hloop := bucketLoop_frame env rx tx ifaceid nowdate Res.all
    (db_exec env (db_begintransaction c1).2 (Stmt.updateTotals rx tx nowdate ifaceid)).2
  have hframe := db_exec_updateTotals_frame env (db_begintransaction c1).2 rx tx nowdate
    ifaceid
  have hbegin : (db_begintransaction c1).2.txn = some c1.tables := by
    simp [db_begintransaction, htxn]
  have htx := hloop.2.2.trans (hframe.1.trans hbegin)
  unfold db_committransaction
  rw [htx]
  exact ⟨rfl, hloop.1⟩

theorem addTotals_map_id (rx tx : Nat) (updated ifaceid : Int) (rows : List IfaceRow) :
    (addTotals rx tx updated ifaceid rows).map (fun row => row.id)
      = rows.map (fun row => row.id) := by
  unfold addTotals
  rw [List.map_map]
  apply List.map_congr_left
  intro row _
  by_cases h : row.id = ifaceid <;> simp [h]

theorem addTotals_map_name (rx tx : Nat) (updated ifaceid : Int) (rows : List IfaceRow) :
    (addTotals rx tx updated ifaceid rows).map (fun row => row.name)
      = rows.map (fun row => row.name) := by
  unfold addTotals
  rw [List.map_map]
  apply List.map_congr_left
  intro row _
  by_cases h : row.id = ifaceid <;> simp [h]

/-- The total update keeps `IfaceWF`. -/
theorem IfaceWF_addTotals (rx tx : Nat) (updated ifaceid : Int) (rows : List IfaceRow)
    (hwf : IfaceWF rows) : IfaceWF (addTotals rx tx updated ifaceid rows) := by
  refine ⟨?_, ?_, ?_⟩
  · intro row hrow
    have hmem : row.id ∈ (addTotals rx tx updated ifaceid rows).map (fun row => row.id) :=
      List.mem_map_of_mem (fun row : IfaceRow => row.id) hrow
    rw [addTotals_map_id] at hmem
    obtain ⟨other, hother, hid⟩ := List.mem_map.mp hmem
    rw [← hid]
    exact hwf.1 other hother
  · rw [addTotals_map_id]
    exact hwf.2.1
  · rw [addTotals_map_name]
    exact hwf.2.2

theorem addTotals_find_name (rx tx : Nat) (updated ifaceid : Int) (name : String)
    (rows : List IfaceRow) (row : IfaceRow)
    (hfind : rows.find? (fun other => other.name = name) = some row)
    (hid : row.id = ifaceid) :
    (addTotals rx tx updated ifaceid rows).find? (fun other => other.name = name)
      = some { row with rxtotal := row.rxtotal.add rx, txtotal := row.txtotal.add tx,
                        updated := updated, active := 1 } := by
  induction rows with
  | nil => simp at hfind
  | cons first rest ih =>
      by_cases h : first.name = name
      · simp [h] at hfind
        subst hfind
        simp [addTotals, h, hid]
      · simp [h] at hfind
        have hrest := ih hfind
        by_cases hid2 : first.id = ifaceid
        · simpa [addTotals, h, hid2] using hrest
        · simpa [addTotals, h, hid2] using hrest

/-- The function `db_addtraffic_dated` for deltas not both zero, with the result of
`db_getinterfaceid` named: it returns 1 and leaves the table `interface` the total update
leaves. -/
theorem db_addtraffic_dated_eq (env : Env) (c c1 : Conn) (iface : String)
    (rx tx timestamp : Nat) (ifaceid : Int) (hnz : ¬ (rx = 0 ∧ tx = 0))
    (hget : db_getinterfaceid env c iface true = (ifaceid, c1)) (hid : ifaceid ≠ 0)
    (htxn : c1.txn = none) :
    (db_addtraffic_dated env c iface rx tx timestamp).1 = 1 ∧
      (db_addtraffic_dated env c iface rx tx timestamp).2.tables.interface =
        (db_exec env (db_begintransaction c1).2
          (Stmt.updateTotals rx tx
            (if timestamp > 0 then NowDate.unixepoch timestamp else NowDate.now)
            ifaceid)).2.tables.interface := by
  have htr := addtraffic_transaction env c1 rx tx ifaceid
    (if timestamp > 0 then NowDate.unixepoch timestamp else NowDate.now) htxn
  have hbegin : (db_begintransaction c1).1 = 1 := by
    simp [db_begintransaction, htxn]
  unfold db_addtraffic_dated
  rw [if_neg hnz, hget]
  simp only [hid, if_false]
  have hsplit : db_begintransaction c1
      = ((db_begintransaction c1).1, (db_begintransaction c1).2) := rfl
  rw [hsplit]
  simp only [hbegin]
  exact htr

/-- The table `interface` after a `db_addtraffic_dated` whose date SQLite can form. -/
theorem db_addtraffic_dated_interface (env : Env) (c c1 : Conn) (iface : String)
    (rx tx timestamp : Nat) (ifaceid updated : Int) (hnz : ¬ (rx = 0 ∧ tx = 0))
    (hget : db_getinterfaceid env c iface true = (ifaceid, c1)) (hid : ifaceid ≠ 0)
    (htxn : c1.txn = none)
    (hdate : datetimeLocal env
      (if timestamp > 0 then NowDate.unixepoch timestamp else NowDate.now) = some updated) :
    (db_addtraffic_dated env c iface rx tx timestamp).2.tables.interface =
      addTotals rx tx updated ifaceid c1.tables.interface := by
  rw [(db_addtraffic_dated_eq env c c1 iface rx tx timestamp ifaceid hnz hget hid htxn).2,
    db_exec_updateTotals_dated env _ rx tx _ ifaceid updated hdate]
  simp [db_begintransaction, htxn]

/-- With a transaction open, or without an interface id, `db_addtraffic_dated` with deltas
not both zero returns 0. -/
theorem db_addtraffic_dated_fails (env : Env) (c c1 : Conn) (iface : String)
    (rx tx timestamp : Nat) (ifaceid : Int) (hnz : ¬ (rx = 0 ∧ tx = 0))
    (hget : db_getinterfaceid env c iface true = (ifaceid, c1))
    (hbad : ifaceid = 0 ∨ c1.txn ≠ none) :
    (db_addtraffic_dated env c iface rx tx timestamp).1 = 0 := by
  unfold db_addtraffic_dated
  rw [if_neg hnz, hget]
  by_cases hid : ifaceid = 0
  · simp [hid]
  · simp only [hid, if_false]
    rcases hbad with h0 | htx
    · exact absurd h0 hid
    · cases hc : c1.txn with
      | none => exact absurd hc htx
      | some saved => simp [db_begintransaction, hc]

/-- What `datesInRange` says: the clock and the date of the call are dates SQLite can
form. -/
theorem datesInRange_spec (env : Env) (timestamp : Nat)
    (h : datesInRange env timestamp = true) :
    sqlDate (localtime env env.now) ≠ none ∧
      ∃ updated : Int, datetimeLocal env
        (if timestamp > 0 then NowDate.unixepoch timestamp else NowDate.now)
          = some updated := by
  unfold datesInRange at h
  rw [Bool.and_eq_true] at h
  constructor
  · intro hn
    rw [hn] at h
    exact absurd h.1 (by decide)
  · cases hd : datetimeLocal env
        (if timestamp > 0 then NowDate.unixepoch timestamp else NowDate.now) with
    | none =>
        rw [hd] at h
        exact absurd h.2 (by decide)
    | some updated => exact ⟨updated, rfl⟩

/-- One successful `db_addtraffic_dated` with deltas not both zero, a name whose select
fits `sql[512]` and dates SQLite can form adds the deltas to the totals of the interface,
creating its row when there is none, and keeps `IfaceWF`. -/
theorem db_addtraffic_dated_totals (env : Env) (c : Conn) (iface : String)
    (rx tx timestamp : Nat) (hwf : IfaceWF c.tables.interface)
    (hfit : escapedLength iface ≤ 473) (hrange : datesInRange env timestamp = true)
    (hnz : ¬ (rx = 0 ∧ tx = 0))
    (hok : (db_addtraffic_dated env c iface rx tx timestamp).1 = 1) :
    IfaceWF (db_addtraffic_dated env c iface rx tx timestamp).2.tables.interface ∧
      totalsOf (db_addtraffic_dated env c iface rx tx timestamp).2.tables iface =
        ((totalsOf c.tables iface).1.add rx, (totalsOf c.tables iface).2.add tx) := by
  obtain ⟨hclock, updated, hdate⟩ := datesInRange_spec env timestamp hrange
  by_cases hreg : ∃ row ∈ c.tables.interface, row.name = iface
  · obtain ⟨row, hmem, rfl⟩ := hreg
    have hget := db_getinterfaceid_found env c true row hwf hmem hfit
    have hid : row.id ≠ 0 := by have := hwf.1 row hmem; omega
    cases htxn : c.txn with
    | some saved =>
        have h0 := db_addtraffic_dated_fails env c c row.name rx tx timestamp row.id hnz hget
          (Or.inr (by rw [htxn]; simp))
        rw [h0] at hok
        cases hok
    | none =>
        have heq := db_addtraffic_dated_interface env c c row.name rx tx timestamp row.id
          updated hnz hget hid htxn hdate
        have hfind := find_of_nodup (fun row : IfaceRow => row.name) _ row hmem hwf.2.2
        refine ⟨by rw [heq]; exact IfaceWF_addTotals _ _ _ _ _ hwf, ?_⟩
        unfold totalsOf
        rw [heq, addTotals_find_name rx tx _ row.id row.name _ row hfind rfl]
        simp only at hfind
        rw [hfind]
  · have habs : ∀ row ∈ c.tables.interface, row.name ≠ iface := by
      intro row hmem hk
      exact hreg ⟨row, hmem, hk⟩
    have hget := db_getinterfaceid_create env c iface hfit hclock habs
    have hnext := nextRowid_pos (c.tables.interface.map (fun row => row.id)) (by
      intro x hx
      obtain ⟨row, hrow, rfl⟩ := List.mem_map.mp hx
      exact hwf.1 row hrow)
    have hid : nextRowid (c.tables.interface.map (fun row => row.id)) ≠ 0 := by omega
    have hnone := find_name_eq_none (fun row : IfaceRow => row.name) iface _ habs
    cases htxn : c.txn with
    | some saved =>
        have h0 := db_addtraffic_dated_fails env c _ iface rx tx timestamp _ hnz hget
          (Or.inr (by show c.txn ≠ none; rw [htxn]; simp))
        rw [h0] at hok
        cases hok
    | none =>
        have heq := db_addtraffic_dated_interface env c _ iface rx tx timestamp _ updated
          hnz hget hid htxn hdate
        have hwf2 := IfaceWF_append_fresh env c.tables.interface iface hwf habs
        have hfind : (c.tables.interface ++
            [freshInterface env iface (nextRowid (c.tables.interface.map (fun row => row.id)))]
            ).find? (fun other => other.name = iface)
            = some (freshInterface env iface
                (nextRowid (c.tables.interface.map (fun row => row.id)))) := by
          simp only at hnone
          rw [List.find?_append, hnone]
          simp [freshInterface]
        refine ⟨by rw [heq]; exact IfaceWF_addTotals _ _ _ _ _ hwf2, ?_⟩
        unfold totalsOf
        rw [heq]
        simp only at hnone
        rw [hnone]
        show (match (addTotals rx tx _ _ (c.tables.interface ++ [_])).find? _ with
          | some row => (row.rxtotal, row.txtotal)
          | none => (Cell.int 0, Cell.int 0)) = _
        have hfid : (freshInterface env iface
            (nextRowid (c.tables.interface.map (fun row => row.id)))).id
            = nextRowid (c.tables.interface.map (fun row => row.id)) := rfl
        rw [addTotals_find_name rx tx _ _ iface _ _ hfind hfid]
        rfl

/-- The table `interface` is the same before and after `db_removeoldentries`. -/
theorem db_removeoldentries_interface (env : Env) (c : Conn) :
    (db_removeoldentries env c).2.tables.interface = c.tables.interface := by
  cases htxn : c.txn with
  | some saved => rw [db_removeoldentries_in_txn env c saved htxn]
  | none => rw [db_removeoldentries_eq env c htxn]

theorem Cell_add_int (a : Int) (u : Nat) (hu : u < 2 ^ 63) (hsum : a + u < 2 ^ 63) :
    (Cell.int a).add u = Cell.int (a + u) := by
  show (if u < 2 ^ 63 ∧ a + u < 2 ^ 63 then Cell.int (a + u) else Cell.real) = _
  rw [if_pos ⟨hu, hsum⟩]

/-- The totals after a run in which every `db_addtraffic_dated` returned 1. -/
theorem runOps_totals (iface : String) (hfit : escapedLength iface ≤ 473) (ops : List Op) :
    ∀ (c : Conn) (a b : Int), IfaceWF c.tables.interface →
      opsInRange ops = true →
      (runOps iface c ops).1 = true →
      totalsOf c.tables iface = (Cell.int a, Cell.int b) →
      0 ≤ a → 0 ≤ b → a + sumRx ops < 2 ^ 63 → b + sumTx ops < 2 ^ 63 →
      totalsOf (runOps iface c ops).2.tables iface
        = (Cell.int (a + sumRx ops), Cell.int (b + sumTx ops)) := by
  induction ops with
  | nil =>
      intro c a b _ _ _ htot _ _ _ _
      simpa [runOps, sumRx, sumTx] using htot
  | cons op ops ih =>
      intro c a b hwf hrange hok htot ha hb hra hrb
      cases op with
      | removeoldentries env =>
          simp only [runOps, sumRx, sumTx, opsInRange] at hok hra hrb hrange ⊢
          have hif := db_removeoldentries_interface env c
          apply ih _ a b (by rw [hif]; exact hwf) hrange hok _ ha hb hra hrb
          unfold totalsOf
          rw [hif]
          exact htot
      | addtraffic env rx tx timestamp =>
          simp only [runOps, sumRx, sumTx, opsInRange, Bool.and_eq_true,
            decide_eq_true_eq] at hok hra hrb hrange ⊢
          push_cast at hra hrb ⊢
          by_cases hnz : rx = 0 ∧ tx = 0
          · obtain ⟨hrx, htx⟩ := hnz
            subst hrx
            subst htx
            have hzero : db_addtraffic_dated env c iface 0 0 timestamp = (1, c) := by
              simp [db_addtraffic_dated]
            rw [hzero] at hok ⊢
            have := ih c a b hwf hrange.2 hok.2 htot ha hb (by simpa using hra)
              (by simpa using hrb)
            simpa using this
          · have hstep := db_addtraffic_dated_totals env c iface rx tx timestamp hwf hfit
              hrange.1 hnz hok.1
            have hrxlt : rx < 2 ^ 63 := by
              have : (rx : Int) < 2 ^ 63 := by
                have := Int.ofNat_nonneg (sumRx ops)
                omega
              exact_mod_cast this
            have htxlt : tx < 2 ^ 63 := by
              have : (tx : Int) < 2 ^ 63 := by
                have := Int.ofNat_nonneg (sumTx ops)
                omega
              exact_mod_cast this
            have hsa : a + (rx : Int) < 2 ^ 63 := by
              have := Int.ofNat_nonneg (sumRx ops)
              omega
            have hsb : b + (tx : Int) < 2 ^ 63 := by
              have := Int.ofNat_nonneg (sumTx ops)
              omega
            have htot2 : totalsOf (db_addtraffic_dated env c iface rx tx timestamp).2.tables iface
                = (Cell.int (a + rx), Cell.int (b + tx)) := by
              rw [hstep.2, htot]
              simp only [Cell_add_int a rx hrxlt hsa, Cell_add_int b tx htxlt hsb]
            have := ih _ (a + rx) (b + tx) hstep.1 hrange.2 hok.2 htot2 (by omega) (by omega)
              (by omega) (by omega)
            rw [this]
            congr 2 <;> omega

set_option maxRecDepth 100000 in
/-- C4, as stated, fails in three ways. A delta of `2^63`, an unsigned 64-bit value: the
call returns 1 and `rxtotal` is a floating-point value that reads back as `2^63 - 1`. A
timestamp past 9999-12-31 23:59:59: the call returns 1 and the totals stay 0, the total
update being rejected for its NULL `updated` and its result not read. A name that does
not fit `sql[512]`: on the table with the one row `fullName`, the call for `cutName`
returns 1, adds the deltas to the row of `fullName` and makes no row for `cutName`. -/
theorem totals_not_sum_of_deltas :
    2 ^ 63 < 2 ^ 64 ∧
      (db_addtraffic_dated marchEnv eth0Conn "eth0" (2 ^ 63) 5 1710513420).1 = 1 ∧
      totalsOf (db_addtraffic_dated marchEnv eth0Conn "eth0" (2 ^ 63) 5 1710513420).2.tables
        "eth0" = (Cell.real, Cell.int 5) ∧
      Cell.real.column_int64 = 2 ^ 63 - 1 ∧
      (db_addtraffic_dated marchEnv eth0Conn "eth0" 100 50 253402300800).1 = 1 ∧
      totalsOf (db_addtraffic_dated marchEnv eth0Conn "eth0" 100 50 253402300800).2.tables
        "eth0" = (Cell.int 0, Cell.int 0) ∧
      (db_addtraffic_dated marchEnv
        (db_getinterfaceid marchEnv emptyConn fullName true).2 cutName 100 50 1710513420).1
        = 1 ∧
      (db_addtraffic_dated marchEnv
        (db_getinterfaceid marchEnv emptyConn fullName true).2 cutName 100 50
        1710513420).2.tables.interface
        = [{ freshInterface marchEnv fullName 1 with
              rxtotal := Cell.int 100, txtotal := Cell.int 50, updated := 1710513420 }] := by
  decide

/-- C4, amended. On a table `interface` with positive, distinct ids and distinct names,
take an interface whose name fits the select in `sql[512]` (at most 473 bytes, each `'`
counted twice) and whose totals are the integers `a ≥ 0` and `b ≥ 0` (0 and 0 for a name
not yet registered), and any run of `db_addtraffic_dated` calls on it, mixed in any order
with `db_removeoldentries` calls, in which every `db_addtraffic_dated` returned 1 and had
a clock and a timestamp SQLite can write as dates (not past 9999-12-31 23:59:59 local
time): while the sums stay below `2^63`, `rxtotal` is `a` plus the sum of the `rx` deltas
and `txtotal` is `b` plus the sum of the `tx` deltas. `db_removeoldentries` never changes
the table `interface`. -/
theorem totals_eq_sum_of_deltas (iface : String) (c : Conn) (ops : List Op) (a b : Int)
    (hwf : IfaceWF c.tables.interface) (hfit : escapedLength iface ≤ 473)
    (hrange : opsInRange ops = true) (hok : (runOps iface c ops).1 = true)
    (htot : totalsOf c.tables iface = (Cell.int a, Cell.int b))
    (ha : 0 ≤ a) (hb : 0 ≤ b)
    (hra : a + sumRx ops < 2 ^ 63) (hrb : b + sumTx ops < 2 ^ 63) :
    totalsOf (runOps iface c ops).2.tables iface
        = (Cell.int (a + sumRx ops), Cell.int (b + sumTx ops)) ∧
      ∀ (env : Env) (c1 : Conn),
        (db_removeoldentries env c1).2.tables.interface = c1.tables.interface :=
  ⟨runOps_totals iface hfit ops c a b hwf hrange hok htot ha hb hra hrb,
    db_removeoldentries_interface⟩

set_option maxRecDepth 100000 in
/-- The hypotheses of `totals_eq_sum_of_deltas` hold for a new database and the run
"100/50 at 14:37, prune, 7/3 at 14:38": the totals of `eth0` end at 107 and 53. -/
theorem totals_eq_sum_of_deltas_witness :
    totalsOf (runOps "eth0" emptyConn
      [Op.addtraffic marchEnv 100 50 1710513420, Op.removeoldentries marchEnv,
        Op.addtraffic marchEnv 7 3 1710513480]).2.tables "eth0"
      = (Cell.int 107, Cell.int 53) :=
  (totals_eq_sum_of_deltas "eth0" emptyConn
    [Op.addtraffic marchEnv 100 50 1710513420, Op.removeoldentries marchEnv,
      Op.addtraffic marchEnv 7 3 1710513480] 0 0
    ⟨by decide, by decide, by decide⟩ (by decide) (by decide) (by decide) (by decide)
    (by decide) (by decide) (by decide) (by decide)).1

/-! ## The bucket statements of `db_addtraffic_dated` -/

/-- No format string of `datadates[]` is an SQL expression: each has a `%` where an
operand must stand. -/
theorem template_not_sql (r : Res) : sqlExprOk (DateArg.template r).text = false := by
  cases r <;> decide

/-- SQLite rejects the bucket insert of `db_addtraffic_dated`, on every connection. -/
theorem insertBucket_template_rejected (env : Env) (c : Conn) (r : Res) (ifaceid : Int) :
    db_exec env c (Stmt.insertBucket r ifaceid (DateArg.template r)) = (0, c) := by
  simp [db_exec, Stmt.step, template_not_sql r]

theorem series_setSeries_same (t : Tables) (r : Res) (rows : List BucketRow) :
    (t.setSeries r rows).series r = rows := by
  cases r <;> rfl

theorem series_setSeries_other (t : Tables) (r r2 : Res) (rows : List BucketRow)
    (h : r2 ≠ r) : (t.setSeries r rows).series r2 = t.series r2 := by
  cases r <;> cases r2 <;> first | rfl | exact absurd rfl h

theorem addBucket_keys (rx tx : Nat) (ifaceid d : Int) (rows : List BucketRow) :
    bucketKeys (addBucket rx tx ifaceid d rows) = bucketKeys rows := by
  unfold bucketKeys addBucket
  rw [List.map_map]
  apply List.map_congr_left
  intro row _
  by_cases h : row.interface = ifaceid ∧ row.date = d <;> simp [h]

/-- A bucket update leaves every series with the rows it had. -/
theorem db_exec_updateBucket_keys (env : Env) (c : Conn) (r r2 : Res) (rx tx : Nat)
    (ifaceid : Int) (date : DateArg) :
    bucketKeys ((db_exec env c (Stmt.updateBucket r rx tx ifaceid date)).2.tables.series r2)
      = bucketKeys (c.tables.series r2) := by
  unfold db_exec
  cases hstep : Stmt.step env c (Stmt.updateBucket r rx tx ifaceid date) with
  | none => rfl
  | some c1 =>
      simp only [Stmt.step] at hstep
      split at hstep
      · split at hstep
        · cases hstep
        · cases hstep
          rfl
        · cases hstep
          by_cases h : r2 = r
          · subst h
            show bucketKeys ((c.tables.setSeries r2 _).series r2) = _
            rw [series_setSeries_same, addBucket_keys]
          · show bucketKeys ((c.tables.setSeries r _).series r2) = _
            rw [series_setSeries_other _ _ _ _ h]
      · cases hstep

/-- The bucket loop leaves every series with the rows it had. -/
theorem bucketLoop_keys (env : Env) (rx tx : Nat) (ifaceid : Int) (nowdate : NowDate)
    (r2 : Res) (rs : List Res) (c : Conn) :
    bucketKeys ((rs.foldl (addtrafficBucket env rx tx ifaceid nowdate) c).tables.series r2)
      = bucketKeys (c.tables.series r2) := by
  induction rs generalizing c with
  | nil => rfl
  | cons r rs ih =>
      have hround : bucketKeys
          ((addtrafficBucket env rx tx ifaceid nowdate c r).tables.series r2)
            = bucketKeys (c.tables.series r2) := by
        unfold addtrafficBucket
        rw [insertBucket_template_rejected]
        exact db_exec_updateBucket_keys env c r r2 rx tx ifaceid _
      exact (ih _).trans hround

/-- The connection `db_getinterfaceid` leaves, for every name: the one it was given, or
that one with the row of the name appended to a table that had no row of the name. -/
theorem db_getinterfaceid_conn (env : Env) (c : Conn) (iface : String) (b : Bool) :
    (db_getinterfaceid env c iface b).2 = c ∨
      ((∀ row ∈ c.tables.interface, row.name ≠ iface) ∧
        (db_getinterfaceid env c iface b).2 =
          { c with
            tables := { c.tables with
              interface := c.tables.interface ++
                [freshInterface env iface
                  (nextRowid (c.tables.interface.map (fun row => row.id)))] },
            changes := 1,
            lastRowid := nextRowid (c.tables.interface.map (fun row => row.id)) }) := by
  unfold db_getinterfaceid
  simp only
  split
  · unfold db_addinterface db_exec
    cases hstep : Stmt.step env c (Stmt.addInterface iface) with
    | none => exact Or.inl rfl
    | some c1 =>
        obtain ⟨habs, hc1⟩ := addInterface_step env c c1 iface hstep
        refine Or.inr ⟨habs, ?_⟩
        simp only [one_ne_zero, if_false]
        exact hc1
  · exact Or.inl rfl

/-- The function `db_getinterfaceid` leaves every series, the table `info` and the
transaction as they were. -/
theorem db_getinterfaceid_frame (env : Env) (c : Conn) (iface : String) (b : Bool) :
    (∀ r : Res, (db_getinterfaceid env c iface b).2.tables.series r = c.tables.series r) ∧
      (db_getinterfaceid env c iface b).2.tables.info = c.tables.info ∧
      (db_getinterfaceid env c iface b).2.txn = c.txn := by
  rcases db_getinterfaceid_conn env c iface b with h | ⟨_, h⟩
  · rw [h]
    exact ⟨fun _ => rfl, rfl, rfl⟩
  · rw [h]
    exact ⟨fun r => by cases r <;> rfl, rfl, rfl⟩

/-- The function `db_addtraffic_dated` never adds a row to a series, and never removes
one: for every input each series has the rows (id, interface, date) it had before. -/
theorem db_addtraffic_dated_keys (env : Env) (c : Conn) (iface : String)
    (rx tx timestamp : Nat) (r : Res) :
    bucketKeys ((db_addtraffic_dated env c iface rx tx timestamp).2.tables.series r)
      = bucketKeys (c.tables.series r) := by
  have hser := (db_getinterfaceid_frame env c iface true).1 r
  unfold db_addtraffic_dated
  split
  · rfl
  · rcases hget : db_getinterfaceid env c iface true with ⟨ifaceid, c1⟩
    rw [hget] at hser
    simp only
    split
    · exact congrArg bucketKeys hser
    · cases htxn : c1.txn with
      | some saved =>
          simp only [db_begintransaction, htxn, if_true]
          exact congrArg bucketKeys hser
      | none =>
          simp only [db_begintransaction, htxn]
          have hloop := bucketLoop_keys env rx tx ifaceid
            (if timestamp > 0 then NowDate.unixepoch timestamp else NowDate.now) r Res.all
            (db_exec env { c1 with txn := some c1.tables }
              (Stmt.updateTotals rx tx
                (if timestamp > 0 then NowDate.unixepoch timestamp else NowDate.now)
                ifaceid)).2
          have hupd := (db_exec_updateTotals_frame env { c1 with txn := some c1.tables } rx tx
            (if timestamp > 0 then NowDate.unixepoch timestamp else NowDate.now)
            ifaceid).2.2.1 r
          have hcommit : ∀ c4 : Conn, (db_committransaction c4).2.tables = c4.tables := by
            intro c4
            unfold db_committransaction
            cases c4.txn <;> rfl
          simp only [if_false, one_ne_zero, hcommit]
          rw [hloop, hupd]
          exact congrArg bucketKeys hser

/-- Whenever `db_getinterfaceid` gave an id and no transaction is open,
`db_addtraffic_dated` with deltas not both zero returns 1: the result of no statement
between `BEGIN` and `COMMIT` is read. -/
theorem db_addtraffic_dated_returns_one (env : Env) (c : Conn) (iface : String)
    (rx tx timestamp : Nat) (hnz : ¬ (rx = 0 ∧ tx = 0))
    (hid : (db_getinterfaceid env c iface true).1 ≠ 0) (htxn : c.txn = none) :
    (db_addtraffic_dated env c iface rx tx timestamp).1 = 1 := by
  have htxn1 : (db_getinterfaceid env c iface true).2.txn = none :=
    (db_getinterfaceid_frame env c iface true).2.2.trans htxn
  exact (db_addtraffic_dated_eq env c _ iface rx tx timestamp _ hnz rfl hid htxn1).1

/-- On a table `interface` with positive, distinct ids and distinct names, for a name
whose select fits `sql[512]` and a clock SQLite can write as a date, `db_getinterfaceid`
with `createifnotfound = 1` gives an id. -/
theorem db_getinterfaceid_ne_zero (env : Env) (c : Conn) (iface : String)
    (hwf : IfaceWF c.tables.interface) (hfit : escapedLength iface ≤ 473)
    (hclock : sqlDate (localtime env env.now) ≠ none) :
    (db_getinterfaceid env c iface true).1 ≠ 0 := by
  by_cases hreg : ∃ row ∈ c.tables.interface, row.name = iface
  · obtain ⟨row, hmem, rfl⟩ := hreg
    rw [db_getinterfaceid_found env c true row hwf hmem hfit]
    have := hwf.1 row hmem
    show row.id ≠ 0
    omega
  · have habs : ∀ row ∈ c.tables.interface, row.name ≠ iface := by
      intro row hmem hk
      exact hreg ⟨row, hmem, hk⟩
    have hnext := nextRowid_pos (c.tables.interface.map (fun row => row.id)) (by
      intro x hx
      obtain ⟨row, hrow, rfl⟩ := List.mem_map.mp hx
      exact hwf.1 row hrow)
    rw [db_getinterfaceid_create env c iface hfit hclock habs]
    show nextRowid _ ≠ 0
    omega

/-- C1 fails on the code. In `db_addtraffic_dated("eth0", 100, 50, 1710513420)` on a
database with the interface `eth0` and totals 0, SQLite rejects each of the five bucket
inserts executed between `BEGIN` and `COMMIT`, yet the call commits the total update: the
totals are 100 and 50 instead of their values before the call, and no transaction is left
open. A `ROLLBACK` in place of the `COMMIT` would have put the tables back. -/
theorem db_addtraffic_dated_not_atomic :
    (∀ (c : Conn) (r : Res),
        (db_exec marchEnv c (Stmt.insertBucket r 1 (DateArg.template r))).1 = 0) ∧
      db_addtraffic_dated marchEnv eth0Conn "eth0" 100 50 1710513420 =
        db_committransaction
          (beforeCommit marchEnv eth0Conn 100 50 1 (NowDate.unixepoch 1710513420)) ∧
      totalsOf eth0Conn.tables "eth0" = (Cell.int 0, Cell.int 0) ∧
      totalsOf (db_addtraffic_dated marchEnv eth0Conn "eth0" 100 50 1710513420).2.tables "eth0"
        = (Cell.int 100, Cell.int 50) ∧
      (db_addtraffic_dated marchEnv eth0Conn "eth0" 100 50 1710513420).2.txn = none ∧
      (db_rollbacktransaction
          (beforeCommit marchEnv eth0Conn 100 50 1 (NowDate.unixepoch 1710513420))).2.tables
        = eth0Conn.tables := by
  refine ⟨?_, by decide, by decide, by decide, by decide, by decide⟩
  intro c r
  rw [insertBucket_template_rejected]

set_option maxRecDepth 100000 in
/-- C2 fails on the code. SQLite rejects the bucket insert of every round of the loop, on
every connection, and `db_addtraffic_dated` returns 1 all the same: for
`("eth0", 100, 50, 1710513420)` on a new database; for every timestamp and deltas not
both zero on a connection with no transaction open, a table `interface` with positive,
distinct ids and distinct names, a name whose select fits `sql[512]` and a clock SQLite
can write as a date; and, for every name, whenever `db_getinterfaceid` gave an id and no
transaction is open. -/
theorem db_addtraffic_dated_reports_success :
    (∀ (env : Env) (c : Conn) (r : Res) (ifaceid : Int),
        (db_exec env c (Stmt.insertBucket r ifaceid (DateArg.template r))).1 = 0) ∧
      (db_addtraffic_dated marchEnv emptyConn "eth0" 100 50 1710513420).1 = 1 ∧
      (∀ (env : Env) (c : Conn) (iface : String) (rx tx timestamp : Nat),
        IfaceWF c.tables.interface → c.txn = none → ¬ (rx = 0 ∧ tx = 0) →
          escapedLength iface ≤ 473 → sqlDate (localtime env env.now) ≠ none →
          (db_addtraffic_dated env c iface rx tx timestamp).1 = 1) ∧
      (∀ (env : Env) (c : Conn) (iface : String) (rx tx timestamp : Nat),
        c.txn = none → ¬ (rx = 0 ∧ tx = 0) →
          (db_getinterfaceid env c iface true).1 ≠ 0 →
          (db_addtraffic_dated env c iface rx tx timestamp).1 = 1) := by
  refine ⟨?_, by decide, ?_, ?_⟩
  · intro env c r ifaceid
    rw [insertBucket_template_rejected]
  · intro env c iface rx tx timestamp hwf htxn hnz hfit hclock
    exact db_addtraffic_dated_returns_one env c iface rx tx timestamp hnz
      (db_getinterfaceid_ne_zero env c iface hwf hfit hclock) htxn
  · intro env c iface rx tx timestamp htxn hnz hid
    exact db_addtraffic_dated_returns_one env c iface rx tx timestamp hnz hid htxn

set_option maxRecDepth 100000 in
/-- C3 fails on the code. `db_addtraffic_dated("eth0", 100, 50, 1710513420)` on a new
database returns 1 and leaves the interface row of `eth0` with totals 100 and 50 and
active 1, and no row in any of the five series; a second call with `(7, 3)` 70 seconds
later, in the same five-minute bucket, returns 1 and still leaves every series empty. For
every input, each series has after the call the rows it had before. -/
theorem db_addtraffic_dated_makes_no_bucket :
    db_addtraffic_dated marchEnv emptyConn "eth0" 100 50 1710513420 =
        (1, { tables := { emptyTables with
                interface := [{ freshInterface marchEnv "eth0" 1 with
                  rxtotal := Cell.int 100, txtotal := Cell.int 50, updated := 1710513420 }] },
              txn := none, changes := 0, lastRowid := 1 }) ∧
      bucketStart marchEnv Res.fiveminute 1710513420
        = bucketStart marchEnv Res.fiveminute 1710513490 ∧
      (db_addtraffic_dated marchEnv
        (db_addtraffic_dated marchEnv emptyConn "eth0" 100 50 1710513420).2
        "eth0" 7 3 1710513490).1 = 1 ∧
      (∀ r : Res, (db_addtraffic_dated marchEnv
        (db_addtraffic_dated marchEnv emptyConn "eth0" 100 50 1710513420).2
        "eth0" 7 3 1710513490).2.tables.series r = []) ∧
      (∀ (env : Env) (c : Conn) (iface : String) (rx tx timestamp : Nat) (r : Res),
        bucketKeys ((db_addtraffic_dated env c iface rx tx timestamp).2.tables.series r)
          = bucketKeys (c.tables.series r)) := by
  refine ⟨by decide, by decide, by decide, ?_, db_addtraffic_dated_keys⟩
  intro r
  cases r <;> decide

/-! ## The invariant of table `interface` -/

theorem storeCounters_map_id (rx tx : Nat) (ifaceid : Int) (rows : List IfaceRow) :
    (storeCounters rx tx ifaceid rows).map (fun row => row.id)
      = rows.map (fun row => row.id) := by
  unfold storeCounters
  rw [List.map_map]
  apply List.map_congr_left
  intro row _
  by_cases h : row.id = ifaceid <;> simp [h]

theorem storeCounters_map_name (rx tx : Nat) (ifaceid : Int) (rows : List IfaceRow) :
    (storeCounters rx tx ifaceid rows).map (fun row => row.name)
      = rows.map (fun row => row.name) := by
  unfold storeCounters
  rw [List.map_map]
  apply List.map_congr_left
  intro row _
  by_cases h : row.id = ifaceid <;> simp [h]

/-- The counter update keeps `IfaceWF`. -/
theorem IfaceWF_storeCounters (rx tx : Nat) (ifaceid : Int) (rows : List IfaceRow)
    (hwf : IfaceWF rows) : IfaceWF (storeCounters rx tx ifaceid rows) := by
  refine ⟨?_, ?_, ?_⟩
  · intro row hrow
    have hmem : row.id ∈ (storeCounters rx tx ifaceid rows).map (fun row => row.id) :=
      List.mem_map_of_mem (fun row : IfaceRow => row.id) hrow
    rw [storeCounters_map_id] at hmem
    obtain ⟨other, hother, hid⟩ := List.mem_map.mp hmem
    rw [← hid]
    exact hwf.1 other hother
  · rw [storeCounters_map_id]
    exact hwf.2.1
  · rw [storeCounters_map_name]
    exact hwf.2.2

/-- The function `db_getinterfaceid` keeps `IfaceWF`, for every name. -/
theorem IfaceWF_db_getinterfaceid (env : Env) (c : Conn) (iface : String) (b : Bool)
    (hwf : IfaceWF c.tables.interface) :
    IfaceWF (db_getinterfaceid env c iface b).2.tables.interface := by
  rcases db_getinterfaceid_conn env c iface b with h | ⟨habs, h⟩
  · rw [h]
    exact hwf
  · rw [h]
    exact IfaceWF_append_fresh env c.tables.interface iface hwf habs

/-- The function `db_addtraffic_dated` keeps `IfaceWF`, whatever it returns. -/
theorem IfaceWF_db_addtraffic_dated (env : Env) (c : Conn) (iface : String)
    (rx tx timestamp : Nat) (hwf : IfaceWF c.tables.interface) :
    IfaceWF (db_addtraffic_dated env c iface rx tx timestamp).2.tables.interface := by
  by_cases hnz : rx = 0 ∧ tx = 0
  · simp only [db_addtraffic_dated, hnz, and_self, if_true]
    exact hwf
  · have hwf1 := IfaceWF_db_getinterfaceid env c iface true hwf
    rcases hget : db_getinterfaceid env c iface true with ⟨ifaceid, c1⟩
    rw [hget] at hwf1
    by_cases hgood : ifaceid ≠ 0 ∧ c1.txn = none
    · rw [(db_addtraffic_dated_eq env c c1 iface rx tx timestamp ifaceid hnz hget
        hgood.1 hgood.2).2]
      have hbegin : (db_begintransaction c1).2.tables = c1.tables := by
        simp [db_begintransaction, hgood.2]
      rcases (db_exec_updateTotals_frame env (db_begintransaction c1).2 rx tx
        (if timestamp > 0 then NowDate.unixepoch timestamp else NowDate.now)
        ifaceid).2.2.2 with h | ⟨updated, h⟩
      · rw [h, hbegin]
        exact hwf1
      · rw [h, hbegin]
        exact IfaceWF_addTotals _ _ _ _ _ hwf1
    · unfold db_addtraffic_dated
      rw [if_neg hnz, hget]
      by_cases hid : ifaceid = 0
      · simp only [hid, if_true]
        exact hwf1
      · simp only [hid, if_false]
        cases htxn : c1.txn with
        | none => exact absurd ⟨hid, htxn⟩ hgood
        | some saved =>
            simp only [db_begintransaction, htxn, if_true]
            exact hwf1

/-- A statement of `db_setinfo` touches the table `interface` not at all. -/
theorem db_exec_info_interface (env : Env) (c : Conn) (name value : String) :
    (db_exec env c (Stmt.updateInfo value name)).2.tables.interface = c.tables.interface ∧
      (db_exec env c (Stmt.insertInfo name value)).2.tables.interface
        = c.tables.interface := by
  constructor
  · unfold db_exec
    cases hstep : Stmt.step env c (Stmt.updateInfo value name) with
    | none => rfl
    | some c1 =>
        simp only [Stmt.step] at hstep
        split at hstep
        · cases hstep
        · cases hstep
          rfl
  · unfold db_exec
    cases hstep : Stmt.step env c (Stmt.insertInfo name value) with
    | none => rfl
    | some c1 =>
        simp only [Stmt.step] at hstep
        split at hstep
        · split at hstep
          · cases hstep
          · cases hstep
            rfl
        · cases hstep

/-- The function `db_setinfo` touches the table `interface` not at all. -/
theorem db_setinfo_interface (env : Env) (c : Conn) (name value : String) (b : Bool) :
    (db_setinfo env c name value b).2.tables.interface = c.tables.interface := by
  have hupd := (db_exec_info_interface env c name value).1
  have hins := (db_exec_info_interface env
    (db_exec env c (Stmt.updateInfo value name)).2 name value).2
  unfold db_setinfo
  have hsplit : db_exec env c (Stmt.updateInfo value name)
      = ((db_exec env c (Stmt.updateInfo value name)).1,
          (db_exec env c (Stmt.updateInfo value name)).2) := rfl
  rw [hsplit]
  simp only
  split
  · exact hupd
  · split
    · exact hins.trans hupd
    · exact hupd

/-- The invariant `IfaceWF` holds on a new database, and every function of the file that
writes keeps it, for every name and value. -/
theorem IfaceWF_preserved (env : Env) (c : Conn) (hwf : IfaceWF c.tables.interface) :
    IfaceWF emptyConn.tables.interface ∧
      (∀ (iface : String) (b : Bool),
        IfaceWF (db_getinterfaceid env c iface b).2.tables.interface) ∧
      (∀ (iface : String) (rx tx : Nat),
        IfaceWF (db_setcounters env c iface rx tx).2.tables.interface) ∧
      (∀ (iface : String) (rx tx timestamp : Nat),
        IfaceWF (db_addtraffic_dated env c iface rx tx timestamp).2.tables.interface) ∧
      IfaceWF (db_removeoldentries env c).2.tables.interface ∧
      (∀ (name value : String) (b : Bool),
        (db_setinfo env c name value b).2.tables.interface = c.tables.interface) := by
  refine ⟨⟨by decide, by decide, by decide⟩, ?_, ?_, ?_, ?_, ?_⟩
  · intro iface b
    exact IfaceWF_db_getinterfaceid env c iface b hwf
  · intro iface rx tx
    unfold db_setcounters
    rw [db_getinterfaceid_nocreate]
    simp only
    split
    · exact hwf
    · simp only [db_exec, Stmt.step]
      exact IfaceWF_storeCounters _ _ _ _ hwf
  · intro iface rx tx timestamp
    exact IfaceWF_db_addtraffic_dated env c iface rx tx timestamp hwf
  · rw [db_removeoldentries_interface]
    exact hwf
  · intro name value b
    exact db_setinfo_interface env c name value b

theorem setValueWhere_map_name (p : InfoRow → Bool) (value : String) (rows : List InfoRow) :
    (setValueWhere p value rows).map (fun row => row.name)
      = rows.map (fun row => row.name) := by
  unfold setValueWhere
  rw [List.map_map]
  apply List.map_congr_left
  intro row _
  by_cases h : p row = true <;> simp [h]

/-- A statement of `db_setinfo` keeps the names of table `info` distinct. -/
theorem info_names_nodup_db_exec (env : Env) (c : Conn) (name value : String)
    (hu : (c.tables.info.map (fun row => row.name)).Nodup) :
    ((db_exec env c (Stmt.updateInfo value name)).2.tables.info.map
        (fun row => row.name)).Nodup ∧
      ((db_exec env c (Stmt.insertInfo name value)).2.tables.info.map
        (fun row => row.name)).Nodup := by
  constructor
  · unfold db_exec
    cases hstep : Stmt.step env c (Stmt.updateInfo value name) with
    | none => exact hu
    | some c1 =>
        simp only [Stmt.step] at hstep
        split at hstep
        · cases hstep
        · cases hstep
          show ((setValueWhere _ _ c.tables.info).map _).Nodup
          rw [setValueWhere_map_name]
          exact hu
  · unfold db_exec
    cases hstep : Stmt.step env c (Stmt.insertInfo name value) with
    | none => exact hu
    | some c1 =>
        simp only [Stmt.step] at hstep
        split at hstep
        · split at hstep
          · cases hstep
          · rename_i hany
            cases hstep
            show ((c.tables.info ++ [_]).map _).Nodup
            rw [List.map_append, List.nodup_append]
            refine ⟨hu, by simp, ?_⟩
            intro x hx hx2
            simp at hx2
            subst hx2
            obtain ⟨row, hrow, hrn⟩ := List.mem_map.mp hx
            apply hany
            rw [List.any_eq_true]
            exact ⟨row, hrow, by simpa using hrn⟩
        · cases hstep

/-- The function `db_setinfo` keeps the names of table `info` distinct, for every name and
value. -/
theorem info_names_nodup_db_setinfo (env : Env) (c : Conn) (name value : String) (b : Bool)
    (hu : (c.tables.info.map (fun row => row.name)).Nodup) :
    ((db_setinfo env c name value b).2.tables.info.map (fun row => row.name)).Nodup := by
  have hupd := (info_names_nodup_db_exec env c name value hu).1
  have hins := (info_names_nodup_db_exec env
    (db_exec env c (Stmt.updateInfo value name)).2 name value hupd).2
  unfold db_setinfo
  have hsplit : db_exec env c (Stmt.updateInfo value name)
      = ((db_exec env c (Stmt.updateInfo value name)).1,
          (db_exec env c (Stmt.updateInfo value name)).2) := rfl
  rw [hsplit]
  simp only
  split
  · exact hupd
  · split
    · exact hins
    · exact hupd

end Dbsql
